import Mathlib

/-!
Verification of the BadgerDB buffer manager (`src/BufMgr/src/buffer.cpp`).

This file gives a shallow embedding of the buffer manager's data model and
public operations, and proves (or refutes) the specification claims about
them.

Modelling conventions:

* `File*` pointers are file identifiers `Option Nat`; `none` models a null
  pointer (a descriptor whose `file` field is absent behaves the same way).
* `Page` contents are irrelevant to the claims, so a buffer-pool slot stores
  only the page number placed in it.
* Calls into the external `File` dependency (`readPage`, `writePage`,
  `allocatePage`, `deletePage`) and diagnostic prints to `cerr` are recorded
  as an event trace.
* The unbounded `for (;;)` loop of `BufMgr::allocBuf` is run on fuel
  `2 * numBufs + 1`, an upper bound on its iteration count (each iteration
  either returns, clears one of at most `numBufs` set refbits, or increments
  the pinned counter, which triggers `BufferExceeded` at `numBufs`).
  Fuel exhaustion is reported as a distinguished outcome.
* `BufDesc::Set` / `BufDesc::Clear` are declared in `buffer.h` and the hash
  table in `bufHashTbl.cpp`, neither of which is under `src/`; they are
  modelled from the spec (sections 4.1 and 4.2).
-/

/-- A frame descriptor, one per frame of the pool (fields of `BufDesc` in
`buffer.h`). `file = none` models a null file pointer. -/
structure BufDesc where
  frameNo : Nat
  file : Option Nat
  pageNo : Nat
  pinCnt : Nat
  dirty : Bool
  valid : Bool
  refbit : Bool
deriving DecidableEq

instance : Inhabited BufDesc := ⟨⟨0, none, 0, 0, false, false, false⟩⟩

/-- Modelled from the spec: `BufDesc::Set(file, pageNo)` is declared in
`buffer.h`, which is absent from `src/`. Spec section 4.1: set `file`,
`pageNo`, `pinCnt = 1`, `valid = true`, `dirty = false`, `refbit = true`. -/
def BufDesc.Set (d : BufDesc) (f : Option Nat) (p : Nat) : BufDesc :=
  { d with file := f, pageNo := p, pinCnt := 1, valid := true, dirty := false, refbit := true }

/-- Modelled from the spec: `BufDesc::Clear()` is declared in `buffer.h`,
which is absent from `src/`. Spec section 4.1: set `pinCnt = 0`,
`valid = false`, `dirty = false`, `refbit = false`, and forget the
`(file, pageNo)` association. -/
def BufDesc.Clear (d : BufDesc) : BufDesc :=
  { d with file := none, pageNo := 0, pinCnt := 0, dirty := false, valid := false, refbit := false }

/-- Key of the page-identity index: the `(file, pageNo)` pair. -/
abbrev HKey := Option Nat × Nat

/-- The page-identity index as an association list. -/
abbrev HashTbl := List (HKey × Nat)

/-- Modelled from the spec: `BufHashTbl::lookup` (section 4.2), whose source
is absent from `src/`. Returns the frame associated with the key, if any. -/
def htLookup : HashTbl → HKey → Option Nat
  | [], _ => none
  | (k', v) :: t, k => if k' = k then some v else htLookup t k

/-- Remove every binding of a key (helper for `htRemove`). -/
def htErase : HashTbl → HKey → HashTbl
  | [], _ => []
  | (k', v) :: t, k => if k' = k then htErase t k else (k', v) :: htErase t k

/-- Modelled from the spec: `BufHashTbl::insert` (section 4.2) adds the
mapping and fails with `AlreadyPresent` (here `none`) if the key exists. -/
def htInsert (h : HashTbl) (k : HKey) (v : Nat) : Option HashTbl :=
  match htLookup h k with
  | some _ => none
  | none => some ((k, v) :: h)

/-- Modelled from the spec: `BufHashTbl::remove` (section 4.2) deletes the
mapping and fails with `NotFound` (here `none`) if the key is absent. -/
def htRemove (h : HashTbl) (k : HKey) : Option HashTbl :=
  match htLookup h k with
  | some _ => some (htErase h k)
  | none => none

/-- Replace the element at an index of a list, leaving the list unchanged
when the index is out of range (as `List.set`). -/
def setNth {α : Type} : List α → Nat → α → List α
  | [], _, _ => []
  | _ :: t, 0, a => a :: t
  | x :: t, n + 1, a => x :: setNth t n a

/-- Read the element at an index, with a default when out of range. -/
def getNth {α : Type} [Inhabited α] : List α → Nat → α
  | [], _ => default
  | x :: _, 0 => x
  | _ :: t, n + 1 => getNth t n

/-- Kinds of diagnostics printed to `cerr` by the caught-exception handlers
in `buffer.cpp`. -/
inductive DiagKind where
  | hashNotFound
  | hashAlreadyPresent
  | bufferExceeded
deriving DecidableEq

/-- Observable events of an operation: calls into the external `File`
dependency, in order, plus diagnostics printed for caught exceptions. -/
inductive Ev where
  | writePage (file : Option Nat) (page : Nat)
  | readPage (file : Option Nat) (page : Nat)
  | allocatePage (file : Nat) (page : Nat)
  | deletePage (file : Option Nat) (page : Nat)
  | diag (k : DiagKind)
deriving DecidableEq

/-- Exceptions that escape a public operation of `BufMgr`. -/
inductive Exn where
  | bufferExceeded
  | pageNotPinned (fname : Nat) (page : Nat) (frame : Nat)
  | pagePinned (fname : Nat) (page : Nat) (frame : Nat)
  | badBuffer (frame : Nat) (dirty : Bool) (valid : Bool) (refbit : Bool)
deriving DecidableEq

/-- How a public operation finished: normal return (including silent returns
after a caught exception), an escaping exception, or undefined behaviour of
the C++ source (use of an unassigned frame number / fuel exhaustion of the
model). -/
inductive Outcome where
  | normal
  | threw (e : Exn)
  | ub
deriving DecidableEq

/-- The buffer manager state: frame-descriptor table, buffer pool (each slot
recorded as the page number written into it), page-identity index and clock
hand (fields of `BufMgr` in `buffer.h`, initialized in `BufMgr::BufMgr`). -/
structure BufMgr where
  numBufs : Nat
  bufDescTable : List BufDesc
  bufPool : List Nat
  hashTable : HashTbl
  clockHand : Nat
deriving DecidableEq

/-- The descriptor of frame `i` (`bufDescTable[i]`). -/
def BufMgr.desc (st : BufMgr) (i : Nat) : BufDesc :=
  getNth st.bufDescTable i

/-- Write back the descriptor of frame `i`. -/
def setDesc (st : BufMgr) (i : Nat) (d : BufDesc) : BufMgr :=
  { st with bufDescTable := setNth st.bufDescTable i d }

/-- Update the hash table of the state. -/
def setHash (st : BufMgr) (h : HashTbl) : BufMgr :=
  { st with hashTable := h }

/-- Store a page number into a buffer-pool slot (`bufPool[frameNo] = ...`). -/
def poolWrite (st : BufMgr) (i v : Nat) : BufMgr :=
  { st with bufPool := setNth st.bufPool i v }

/-- Embedding of `BufMgr::advanceClock`: `clockHand = (clockHand + 1) % numBufs`. -/
def advanceClock (st : BufMgr) : BufMgr :=
  { st with clockHand := (st.clockHand + 1) % st.numBufs }

/-- Result of `BufMgr::allocBuf`: the selected frame on success, the
`BufferExceededException`, a silent return after a caught hash-table
exception (the out-parameter `frame` left unassigned), or fuel exhaustion of
the model (unreachable with the fuel used). -/
inductive AllocRes where
  | ok (frame : Nat)
  | exceeded
  | silent
  | fuelOut
deriving DecidableEq

/-- Output of `BufMgr::allocBuf`: final state, result, events, and the final
value of the local counter `numPinnedPages`. -/
structure AllocOut where
  st : BufMgr
  res : AllocRes
  events : List Ev
  pinnedSeen : Nat
deriving DecidableEq

/-- One decision of the clock loop after the clock has been advanced:
either continue sweeping with an updated state and counter, or stop. -/
inductive StepRes where
  | again (st : BufMgr) (cnt : Nat)
  | done (st : BufMgr) (res : AllocRes) (newEvs : List Ev) (cnt : Nat)
deriving DecidableEq

/-- The body of the clock loop of `BufMgr::allocBuf` (lines 82-156 of
`buffer.cpp`), acting on the frame under the (already advanced) clock hand.
Note two behaviours of the source kept faithfully: a clean valid victim is
`Clear`ed without removing its index entry, and an invalid frame is `Set`
with its own stale `file`/`pageNo` before being returned. -/
def allocVisit (st : BufMgr) (cnt : Nat) : StepRes :=
  if (st.desc st.clockHand).valid then
    if (st.desc st.clockHand).refbit then
      StepRes.again (setDesc st st.clockHand { st.desc st.clockHand with refbit := false }) cnt
    else if 0 < (st.desc st.clockHand).pinCnt then
      if cnt + 1 = st.numBufs then
        StepRes.done st AllocRes.exceeded [] (cnt + 1)
      else
        StepRes.again st (cnt + 1)
    else if (st.desc st.clockHand).dirty then
      match htRemove st.hashTable ((st.desc st.clockHand).file, (st.desc st.clockHand).pageNo) with
      | none =>
          StepRes.done st AllocRes.silent
            [Ev.writePage (st.desc st.clockHand).file (st.desc st.clockHand).pageNo,
             Ev.diag DiagKind.hashNotFound] cnt
      | some h =>
          StepRes.done (setDesc (setHash st h) st.clockHand (st.desc st.clockHand).Clear)
            (AllocRes.ok (st.desc st.clockHand).frameNo)
            [Ev.writePage (st.desc st.clockHand).file (st.desc st.clockHand).pageNo] cnt
    else
      StepRes.done (setDesc st st.clockHand (st.desc st.clockHand).Clear)
        (AllocRes.ok (st.desc st.clockHand).frameNo) [] cnt
  else
    StepRes.done
      (setDesc st st.clockHand
        ((st.desc st.clockHand).Set (st.desc st.clockHand).file (st.desc st.clockHand).pageNo))
      (AllocRes.ok (st.desc st.clockHand).frameNo) [] cnt

/-- The clock loop of `BufMgr::allocBuf`, on fuel. -/
def allocBufLoop : Nat → BufMgr → Nat → List Ev → AllocOut
  | 0, st, cnt, evs => ⟨st, AllocRes.fuelOut, evs, cnt⟩
  | fuel + 1, st, cnt, evs =>
    match allocVisit (advanceClock st) cnt with
    | StepRes.again st' cnt' => allocBufLoop fuel st' cnt' evs
    | StepRes.done st' res newEvs cnt' => ⟨st', res, evs ++ newEvs, cnt'⟩

/-- Embedding of `BufMgr::allocBuf` (lines 73-158 of `buffer.cpp`): the clock algorithm,
starting with `numPinnedPages = 0`. -/
def allocBuf (st : BufMgr) : AllocOut :=
  allocBufLoop (2 * st.numBufs + 1) st 0 []

/-- Output of `BufMgr::readPage`: final state, events, outcome and the value
of the `page` out-parameter (`some frameNo` models `page = &bufPool[frameNo]`,
`none` models the out-parameter left unassigned). -/
structure ReadOut where
  st : BufMgr
  events : List Ev
  outcome : Outcome
  page : Option Nat
deriving DecidableEq

/-- Output of an operation with no out-parameters. -/
structure OpOut where
  st : BufMgr
  events : List Ev
  outcome : Outcome
deriving DecidableEq

/-- The install half of the miss path of `BufMgr::readPage` (lines 202-227):
read the page into the slot, insert the index entry (a caught
`HashAlreadyPresentException` makes the operation return silently), `Set` the
descriptor and assign the out-parameter. -/
def readInstall (st1 : BufMgr) (f pageNo frameNo : Nat) (evs : List Ev) : ReadOut :=
  match htInsert st1.hashTable (some f, pageNo) frameNo with
  | none => ⟨st1, evs ++ [Ev.diag DiagKind.hashAlreadyPresent], Outcome.normal, none⟩
  | some h =>
      ⟨setDesc (setHash st1 h) frameNo (((setHash st1 h).desc frameNo).Set (some f) pageNo),
       evs, Outcome.normal, some frameNo⟩

/-- The miss path of `BufMgr::readPage` (lines 189-228), dispatching on the
result of `allocBuf`. A `BufferExceededException` is caught, printed and
swallowed; the silent-return path of `allocBuf` leaves `frameNo` unassigned,
so continuing with it is undefined behaviour of the C++ source. -/
def readMiss (f pageNo : Nat) (a : AllocOut) : ReadOut :=
  match a.res with
  | AllocRes.exceeded => ⟨a.st, a.events ++ [Ev.diag DiagKind.bufferExceeded], Outcome.normal, none⟩
  | AllocRes.silent => ⟨a.st, a.events, Outcome.ub, none⟩
  | AllocRes.fuelOut => ⟨a.st, a.events, Outcome.ub, none⟩
  | AllocRes.ok frameNo =>
      readInstall (poolWrite a.st frameNo pageNo) f pageNo frameNo
        (a.events ++ [Ev.readPage (some f) pageNo])

/-- Embedding of `BufMgr::readPage` (lines 160-241 of `buffer.cpp`). -/
def readPage (st : BufMgr) (file : Option Nat) (pageNo : Nat) : ReadOut :=
  match file with
  | none => ⟨st, [], Outcome.normal, none⟩
  | some f =>
    match htLookup st.hashTable (some f, pageNo) with
    | some frameNo =>
        ⟨setDesc st frameNo
           { st.desc frameNo with refbit := true, pinCnt := (st.desc frameNo).pinCnt + 1 },
         [], Outcome.normal, some frameNo⟩
    | none => readMiss f pageNo (allocBuf st)

/-- Embedding of `BufMgr::unPinPage` (lines 243-281 of `buffer.cpp`). -/
def unPinPage (st : BufMgr) (file : Option Nat) (pageNo : Nat) (dirty : Bool) : OpOut :=
  match file with
  | none => ⟨st, [], Outcome.normal⟩
  | some f =>
    match htLookup st.hashTable (some f, pageNo) with
    | none => ⟨st, [], Outcome.normal⟩
    | some frameNo =>
        if 0 < (st.desc frameNo).pinCnt then
          ⟨setDesc st frameNo
             { st.desc frameNo with
               pinCnt := (st.desc frameNo).pinCnt - 1,
               dirty := if dirty then true else (st.desc frameNo).dirty },
           [], Outcome.normal⟩
        else
          ⟨st, [], Outcome.threw (Exn.pageNotPinned f pageNo frameNo)⟩

/-- The dirty write-back of the `flushFile` loop body (lines 308-312): write
the page and clear the dirty flag, when dirty. -/
def flushWB (st : BufMgr) (i : Nat) : BufMgr :=
  if (st.desc i).dirty then setDesc st i { st.desc i with dirty := false } else st

/-- The events of the dirty write-back of the `flushFile` loop body. -/
def flushWBev (st : BufMgr) (i : Nat) : List Ev :=
  if (st.desc i).dirty then [Ev.writePage (st.desc i).file (st.desc i).pageNo] else []

/-- The scan of `BufMgr::flushFile` (lines 290-342 of `buffer.cpp`), frame `i`
with `k` frames left to visit (the C++ loop visits `i = 0 .. numBufs - 1`; the
caller passes `k = numBufs`, `i = 0`). -/
def flushLoop (f : Nat) : Nat → Nat → BufMgr → List Ev → OpOut
  | 0, _, st, evs => ⟨st, evs, Outcome.normal⟩
  | k + 1, i, st, evs =>
    if (st.desc i).file = some f then
      if (st.desc i).valid then
        if 0 < (st.desc i).pinCnt then
          ⟨st, evs, Outcome.threw (Exn.pagePinned f (st.desc i).pageNo (st.desc i).frameNo)⟩
        else
          match htRemove (flushWB st i).hashTable (some f, (st.desc i).pageNo) with
          | none => ⟨flushWB st i, evs ++ flushWBev st i ++ [Ev.diag DiagKind.hashNotFound],
                     Outcome.normal⟩
          | some h =>
              flushLoop f k (i + 1)
                (setDesc (setHash (flushWB st i) h) i ((flushWB st i).desc i).Clear)
                (evs ++ flushWBev st i)
      else
        ⟨st, evs, Outcome.threw
           (Exn.badBuffer (st.desc i).frameNo (st.desc i).dirty (st.desc i).valid
             (st.desc i).refbit)⟩
    else
      flushLoop f k (i + 1) st evs

/-- Embedding of `BufMgr::flushFile` (lines 283-343 of `buffer.cpp`). -/
def flushFile (st : BufMgr) (file : Option Nat) : OpOut :=
  match file with
  | none => ⟨st, [], Outcome.normal⟩
  | some f => flushLoop f st.numBufs 0 st []

/-- Output of `BufMgr::allocPage`: final state, events, outcome and the two
out-parameters `pageNo` and `page` (`none` = left unassigned). -/
structure AllocPageOut where
  st : BufMgr
  events : List Ev
  outcome : Outcome
  pageNo : Option Nat
  page : Option Nat
deriving DecidableEq

/-- The install half of `BufMgr::allocPage` (lines 363-387): put the new page
into the slot, insert the index entry (a caught `HashAlreadyPresentException`
makes the operation return silently), `Set` the descriptor and assign the
`page` out-parameter. -/
def allocInstall (st1 : BufMgr) (f fresh frameNo : Nat) (evs : List Ev) : AllocPageOut :=
  match htInsert st1.hashTable (some f, fresh) frameNo with
  | none => ⟨st1, evs ++ [Ev.diag DiagKind.hashAlreadyPresent], Outcome.normal, some fresh, none⟩
  | some h =>
      ⟨setDesc (setHash st1 h) frameNo (((setHash st1 h).desc frameNo).Set (some f) fresh),
       evs, Outcome.normal, some fresh, some frameNo⟩

/-- Dispatch on the `allocBuf` result inside `BufMgr::allocPage`. The
`BufferExceededException` is not caught here, so it escapes to the caller;
the silent-return path leaves `frameNo` unassigned, so continuing with it is
undefined behaviour of the C++ source. -/
def allocDispatch (f fresh : Nat) (evs0 : List Ev) (a : AllocOut) : AllocPageOut :=
  match a.res with
  | AllocRes.exceeded =>
      ⟨a.st, evs0 ++ a.events, Outcome.threw Exn.bufferExceeded, some fresh, none⟩
  | AllocRes.silent => ⟨a.st, evs0 ++ a.events, Outcome.ub, some fresh, none⟩
  | AllocRes.fuelOut => ⟨a.st, evs0 ++ a.events, Outcome.ub, some fresh, none⟩
  | AllocRes.ok frameNo =>
      allocInstall (poolWrite a.st frameNo fresh) f fresh frameNo (evs0 ++ a.events)

/-- Embedding of `BufMgr::allocPage` (lines 345-388 of `buffer.cpp`). The page number the
external `file->allocatePage()` returns is an input of the model (`fresh`);
note it is obtained, and `pageNo` assigned from it, before `allocBuf` runs. -/
def allocPage (st : BufMgr) (file : Option Nat) (fresh : Nat) : AllocPageOut :=
  match file with
  | none => ⟨st, [], Outcome.normal, none, none⟩
  | some f => allocDispatch f fresh [Ev.allocatePage f fresh] (allocBuf st)

/-- Embedding of `BufMgr::disposePage` (lines 390-432 of `buffer.cpp`). On a resident page
the descriptor is `Clear`ed and the index entry removed with no write-back;
`file->deletePage` runs afterwards (also on a miss, but not when the index
removal failed, since that handler returns early). -/
def disposePage (st : BufMgr) (file : Option Nat) (pageNo : Nat) : OpOut :=
  match file with
  | none => ⟨st, [], Outcome.normal⟩
  | some f =>
    match htLookup st.hashTable (some f, pageNo) with
    | none => ⟨st, [Ev.deletePage (some f) pageNo], Outcome.normal⟩
    | some frameNo =>
        match htRemove (setDesc st frameNo (st.desc frameNo).Clear).hashTable (some f, pageNo) with
        | none => ⟨setDesc st frameNo (st.desc frameNo).Clear,
                   [Ev.diag DiagKind.hashNotFound], Outcome.normal⟩
        | some h =>
            ⟨setHash (setDesc st frameNo (st.desc frameNo).Clear) h,
             [Ev.deletePage (some f) pageNo], Outcome.normal⟩

/-- A public operation of the buffer manager, with its arguments (for
`allocPage`, also the page number the external file hands back). -/
inductive Op where
  | readPage (file : Option Nat) (pageNo : Nat)
  | unPinPage (file : Option Nat) (pageNo : Nat) (dirty : Bool)
  | allocPage (file : Option Nat) (fresh : Nat)
  | disposePage (file : Option Nat) (pageNo : Nat)
  | flushFile (file : Option Nat)
deriving DecidableEq

/-- Run a public operation, forgetting its out-parameters. -/
def applyOp (st : BufMgr) : Op → OpOut
  | Op.readPage f p => let r := readPage st f p; ⟨r.st, r.events, r.outcome⟩
  | Op.unPinPage f p d => unPinPage st f p d
  | Op.allocPage f n => let a := allocPage st f n; ⟨a.st, a.events, a.outcome⟩
  | Op.disposePage f p => disposePage st f p
  | Op.flushFile f => flushFile st f

/-- Invariant 1 of the data model (spec section 3): for every valid frame the
index maps its `(file, pageNo)` to it, and every index entry names an
in-range frame that is valid and currently holds exactly that page. -/
def inv1 (st : BufMgr) : Bool :=
  ((List.range st.numBufs).all fun i =>
    !(st.desc i).valid
      || (htLookup st.hashTable ((st.desc i).file, (st.desc i).pageNo) == some i))
  && st.hashTable.all fun e =>
    decide (e.2 < st.numBufs) && (st.desc e.2).valid
      && ((st.desc e.2).file == e.1.1) && ((st.desc e.2).pageNo == e.1.2)

/-- Invariant 2: no two valid frames share the same `(file, pageNo)`. -/
def inv2 (st : BufMgr) : Bool :=
  (List.range st.numBufs).all fun i =>
    (List.range st.numBufs).all fun j =>
      decide (i = j)
        || !((st.desc i).valid && (st.desc j).valid
              && ((st.desc i).file == (st.desc j).file)
              && ((st.desc i).pageNo == (st.desc j).pageNo))

/-- Invariant 3: a frame with `pinCnt > 0` is valid (`pinCnt` is a `Nat`, so
nonnegativity is structural). -/
def inv3 (st : BufMgr) : Bool :=
  (List.range st.numBufs).all fun i =>
    ((st.desc i).pinCnt == 0) || (st.desc i).valid

/-- Invariant 4: `dirty` only on a valid frame. -/
def inv4 (st : BufMgr) : Bool :=
  (List.range st.numBufs).all fun i => !(st.desc i).dirty || (st.desc i).valid

/-- Invariant 5: an invalid frame has `pinCnt = 0`, `dirty = false`,
`refbit = false` and no index entry. -/
def inv5 (st : BufMgr) : Bool :=
  (List.range st.numBufs).all fun i =>
    (st.desc i).valid
      || (((st.desc i).pinCnt == 0) && !(st.desc i).dirty && !(st.desc i).refbit
            && st.hashTable.all fun e => !(e.2 == i))

/-- Invariant 6: the clock hand is in range. -/
def inv6 (st : BufMgr) : Bool :=
  decide (st.clockHand < st.numBufs)

/-- All six invariants of spec section 3 together. -/
def invAll (st : BufMgr) : Bool :=
  inv1 st && inv2 st && inv3 st && inv4 st && inv5 st && inv6 st

/-- Structural well-formedness established by the constructor
`BufMgr::BufMgr` and preserved forever: the descriptor table has `numBufs`
entries and `bufDescTable[i].frameNo = i`. -/
def wfP (st : BufMgr) : Prop :=
  st.bufDescTable.length = st.numBufs ∧ ∀ j, j < st.numBufs → (st.desc j).frameNo = j

/-- The fields of a descriptor other than `refbit` (what a non-returning
sweep step may not change). -/
def sameCore (d e : BufDesc) : Prop :=
  e.pinCnt = d.pinCnt ∧ e.valid = d.valid ∧ e.dirty = d.dirty ∧ e.file = d.file
    ∧ e.pageNo = d.pageNo ∧ e.frameNo = d.frameNo

/-- The state the `flushFile` scan passes to the next frame after handling a
valid, unpinned, resident frame `i` of file `f`: the dirty write-back applied,
the index entry for the frame's page erased, and the descriptor cleared. -/
def flushCleared (f : Nat) (st : BufMgr) (i : Nat) : BufMgr :=
  setDesc (setHash (flushWB st i) (htErase st.hashTable (some f, (st.desc i).pageNo))) i
    ((flushWB st i).desc i).Clear

/-- Example pool, 1 frame: frame 0 valid, clean, unpinned, refbit clear,
holding page 1 of file 1; index entry present; all invariants hold. -/
def stCleanVictim : BufMgr :=
  ⟨1, [⟨0, some 1, 1, 0, false, true, false⟩], [1], [((some 1, 1), 0)], 0⟩

/-- Example pool, 1 frame: frame 0 invalid (freshly constructed). -/
def stFresh : BufMgr :=
  ⟨1, [⟨0, none, 0, 0, false, false, false⟩], [0], [], 0⟩

/-- Example pool, 2 frames: frame 0 pinned (refbit clear), frame 1 valid,
unpinned, refbit set; clock hand on frame 1, so the sweep visits 0, 1, 0. -/
def stHalfPinned : BufMgr :=
  ⟨2, [⟨0, some 1, 1, 1, false, true, false⟩, ⟨1, some 1, 2, 0, false, true, true⟩],
   [1, 2], [((some 1, 1), 0), ((some 1, 2), 1)], 1⟩

/-- Example pool, 1 frame, fully pinned (refbit clear). -/
def stAllPinned : BufMgr :=
  ⟨1, [⟨0, some 1, 1, 1, false, true, false⟩], [1], [((some 1, 1), 0)], 0⟩

/-- Example pool, 1 frame: frame 0 valid, dirty, unpinned, holding page 1 of
file 1. -/
def stDirty : BufMgr :=
  ⟨1, [⟨0, some 1, 1, 0, true, true, false⟩], [1], [((some 1, 1), 0)], 0⟩

/-- Example pool, 1 frame, pinned with refbit set. -/
def stPinnedRef : BufMgr :=
  ⟨1, [⟨0, some 1, 1, 1, false, true, true⟩], [1], [((some 1, 1), 0)], 0⟩

theorem setNth_length {α : Type} (l : List α) (i : Nat) (a : α) :
    (setNth l i a).length = l.length := by
  induction l generalizing i with
  | nil => rfl
  | cons x t ih =>
    cases i with
    | zero => rfl
    | succ n => simp [setNth, ih]

theorem getNth_setNth_self {α : Type} [Inhabited α] (l : List α) (i : Nat) (a : α)
    (h : i < l.length) : getNth (setNth l i a) i = a := by
  induction l generalizing i with
  | nil => simp at h
  | cons x t ih =>
    cases i with
    | zero => rfl
    | succ n => exact ih n (by simpa using h)

theorem getNth_setNth_ne {α : Type} [Inhabited α] (l : List α) (i j : Nat) (a : α)
    (h : j ≠ i) : getNth (setNth l i a) j = getNth l j := by
  induction l generalizing i j with
  | nil => rfl
  | cons x t ih =>
    cases i with
    | zero => cases j with
      | zero => exact absurd rfl h
      | succ m => rfl
    | succ n => cases j with
      | zero => rfl
      | succ m => exact ih n m (fun hh => h (by rw [hh]))

theorem getNth_oob {α : Type} [Inhabited α] (l : List α) (i : Nat)
    (h : l.length ≤ i) : getNth l i = default := by
  induction l generalizing i with
  | nil => rfl
  | cons x t ih =>
    cases i with
    | zero => simp at h
    | succ n => exact ih n (by simpa using h)

theorem htLookup_erase (h : HashTbl) (k : HKey) : htLookup (htErase h k) k = none := by
  induction h with
  | nil => rfl
  | cons e t ih =>
    by_cases he : e.1 = k
    · simp only [htErase]
      rcases e with ⟨k', v⟩
      simp only at he
      rw [if_pos he]
      exact ih
    · rcases e with ⟨k', v⟩
      simp only at he
      simp only [htErase, if_neg he, htLookup, if_neg he]
      exact ih

theorem numBufs_setDesc (st : BufMgr) (i : Nat) (d : BufDesc) :
    (setDesc st i d).numBufs = st.numBufs := rfl

theorem hashTable_setDesc (st : BufMgr) (i : Nat) (d : BufDesc) :
    (setDesc st i d).hashTable = st.hashTable := rfl

theorem bufPool_setDesc (st : BufMgr) (i : Nat) (d : BufDesc) :
    (setDesc st i d).bufPool = st.bufPool := rfl

theorem clockHand_setDesc (st : BufMgr) (i : Nat) (d : BufDesc) :
    (setDesc st i d).clockHand = st.clockHand := rfl

theorem numBufs_advanceClock (st : BufMgr) : (advanceClock st).numBufs = st.numBufs := rfl

theorem desc_advanceClock (st : BufMgr) (j : Nat) : (advanceClock st).desc j = st.desc j := rfl

theorem hashTable_advanceClock (st : BufMgr) : (advanceClock st).hashTable = st.hashTable := rfl

theorem bufPool_advanceClock (st : BufMgr) : (advanceClock st).bufPool = st.bufPool := rfl

theorem desc_setHash (st : BufMgr) (h : HashTbl) (j : Nat) :
    (setHash st h).desc j = st.desc j := rfl

theorem numBufs_setHash (st : BufMgr) (h : HashTbl) : (setHash st h).numBufs = st.numBufs := rfl

theorem desc_poolWrite (st : BufMgr) (i v j : Nat) : (poolWrite st i v).desc j = st.desc j := rfl

theorem desc_setDesc_self (st : BufMgr) (i : Nat) (d : BufDesc)
    (h : i < st.bufDescTable.length) : (setDesc st i d).desc i = d :=
  getNth_setNth_self _ _ _ h

theorem desc_setDesc_ne (st : BufMgr) (i j : Nat) (d : BufDesc) (h : j ≠ i) :
    (setDesc st i d).desc j = st.desc j :=
  getNth_setNth_ne _ _ _ _ h

theorem desc_oob (st : BufMgr) (i : Nat) (h : st.bufDescTable.length ≤ i) :
    st.desc i = default :=
  getNth_oob _ _ h

theorem desc_valid_lt (st : BufMgr) (i : Nat) (h : (st.desc i).valid = true) :
    i < st.bufDescTable.length := by
  by_contra hlt
  rw [desc_oob st i (Nat.le_of_not_lt hlt)] at h
  exact Bool.false_ne_true h

theorem length_setDesc (st : BufMgr) (i : Nat) (d : BufDesc) :
    (setDesc st i d).bufDescTable.length = st.bufDescTable.length :=
  setNth_length _ _ _

theorem allocVisit_invalid (st : BufMgr) (cnt : Nat)
    (h : (st.desc st.clockHand).valid = false) :
    allocVisit st cnt =
      StepRes.done
        (setDesc st st.clockHand
          ((st.desc st.clockHand).Set (st.desc st.clockHand).file (st.desc st.clockHand).pageNo))
        (AllocRes.ok (st.desc st.clockHand).frameNo) [] cnt := by
  simp [allocVisit, h]

theorem allocVisit_refbit (st : BufMgr) (cnt : Nat)
    (hv : (st.desc st.clockHand).valid = true) (hr : (st.desc st.clockHand).refbit = true) :
    allocVisit st cnt =
      StepRes.again (setDesc st st.clockHand { st.desc st.clockHand with refbit := false }) cnt := by
  simp [allocVisit, hv, hr]

theorem allocVisit_pinned_throw (st : BufMgr) (cnt : Nat)
    (hv : (st.desc st.clockHand).valid = true) (hr : (st.desc st.clockHand).refbit = false)
    (hp : 0 < (st.desc st.clockHand).pinCnt) (hc : cnt + 1 = st.numBufs) :
    allocVisit st cnt = StepRes.done st AllocRes.exceeded [] (cnt + 1) := by
  simp [allocVisit, hv, hr, hp, hc]

theorem allocVisit_pinned_cont (st : BufMgr) (cnt : Nat)
    (hv : (st.desc st.clockHand).valid = true) (hr : (st.desc st.clockHand).refbit = false)
    (hp : 0 < (st.desc st.clockHand).pinCnt) (hc : ¬ cnt + 1 = st.numBufs) :
    allocVisit st cnt = StepRes.again st (cnt + 1) := by
  simp [allocVisit, hv, hr, hp, hc]

theorem allocVisit_dirty_fail (st : BufMgr) (cnt : Nat)
    (hv : (st.desc st.clockHand).valid = true) (hr : (st.desc st.clockHand).refbit = false)
    (hp : (st.desc st.clockHand).pinCnt = 0) (hd : (st.desc st.clockHand).dirty = true)
    (hrm : htRemove st.hashTable ((st.desc st.clockHand).file, (st.desc st.clockHand).pageNo)
            = none) :
    allocVisit st cnt =
      StepRes.done st AllocRes.silent
        [Ev.writePage (st.desc st.clockHand).file (st.desc st.clockHand).pageNo,
         Ev.diag DiagKind.hashNotFound] cnt := by
  simp [allocVisit, hv, hr, hp, hd, hrm]

theorem allocVisit_dirty_ok (st : BufMgr) (cnt : Nat) (h : HashTbl)
    (hv : (st.desc st.clockHand).valid = true) (hr : (st.desc st.clockHand).refbit = false)
    (hp : (st.desc st.clockHand).pinCnt = 0) (hd : (st.desc st.clockHand).dirty = true)
    (hrm : htRemove st.hashTable ((st.desc st.clockHand).file, (st.desc st.clockHand).pageNo)
            = some h) :
    allocVisit st cnt =
      StepRes.done (setDesc (setHash st h) st.clockHand (st.desc st.clockHand).Clear)
        (AllocRes.ok (st.desc st.clockHand).frameNo)
        [Ev.writePage (st.desc st.clockHand).file (st.desc st.clockHand).pageNo] cnt := by
  simp [allocVisit, hv, hr, hp, hd, hrm]

theorem allocVisit_clean (st : BufMgr) (cnt : Nat)
    (hv : (st.desc st.clockHand).valid = true) (hr : (st.desc st.clockHand).refbit = false)
    (hp : (st.desc st.clockHand).pinCnt = 0) (hd : (st.desc st.clockHand).dirty = false) :
    allocVisit st cnt =
      StepRes.done (setDesc st st.clockHand (st.desc st.clockHand).Clear)
        (AllocRes.ok (st.desc st.clockHand).frameNo) [] cnt := by
  simp [allocVisit, hv, hr, hp, hd]

theorem allocBufLoop_succ (fuel : Nat) (st : BufMgr) (cnt : Nat) (evs : List Ev) :
    allocBufLoop (fuel + 1) st cnt evs =
      match allocVisit (advanceClock st) cnt with
      | StepRes.again st' cnt' => allocBufLoop fuel st' cnt' evs
      | StepRes.done st' res newEvs cnt' => ⟨st', res, evs ++ newEvs, cnt'⟩ := rfl

theorem setNth_oob {α : Type} (l : List α) (i : Nat) (a : α) (h : l.length ≤ i) :
    setNth l i a = l := by
  induction l generalizing i with
  | nil => rfl
  | cons x t ih =>
    cases i with
    | zero => simp at h
    | succ n => simp [setNth, ih n (by simpa using h)]

theorem setDesc_oob (st : BufMgr) (i : Nat) (d : BufDesc)
    (h : st.bufDescTable.length ≤ i) : setDesc st i d = st := by
  simp [setDesc, setNth_oob _ _ _ h]

theorem sameCore_refl (d : BufDesc) : sameCore d d :=
  ⟨rfl, rfl, rfl, rfl, rfl, rfl⟩

theorem sameCore_trans {d e g : BufDesc} (h1 : sameCore d e) (h2 : sameCore e g) :
    sameCore d g :=
  ⟨h2.1.trans h1.1, h2.2.1.trans h1.2.1, h2.2.2.1.trans h1.2.2.1,
   h2.2.2.2.1.trans h1.2.2.2.1, h2.2.2.2.2.1.trans h1.2.2.2.2.1,
   h2.2.2.2.2.2.trans h1.2.2.2.2.2⟩

theorem sameCore_clear_refbit (st : BufMgr) (c i : Nat) :
    sameCore (st.desc i) ((setDesc st c { st.desc c with refbit := false }).desc i) := by
  by_cases hic : i = c
  · subst hic
    by_cases hlt : i < st.bufDescTable.length
    · rw [desc_setDesc_self _ _ _ hlt]
      exact ⟨rfl, rfl, rfl, rfl, rfl, rfl⟩
    · rw [setDesc_oob _ _ _ (Nat.le_of_not_lt hlt)]
      exact sameCore_refl _
  · rw [desc_setDesc_ne _ _ _ _ hic]
    exact sameCore_refl _

theorem wfP_setDesc (st : BufMgr) (c : Nat) (d : BufDesc) (hw : wfP st)
    (hf : d.frameNo = (st.desc c).frameNo) : wfP (setDesc st c d) := by
  refine ⟨by rw [length_setDesc]; exact hw.1, ?_⟩
  intro j hj
  by_cases hjc : j = c
  · subst hjc
    by_cases hlt : j < st.bufDescTable.length
    · rw [desc_setDesc_self _ _ _ hlt, hf]
      exact hw.2 j hj
    · rw [setDesc_oob _ _ _ (Nat.le_of_not_lt hlt)]
      exact hw.2 j hj
  · rw [desc_setDesc_ne _ _ _ _ hjc]
    exact hw.2 j hj

theorem allocBufLoop_exceeded_count (fuel : Nat) :
    ∀ (st : BufMgr) (cnt : Nat) (evs : List Ev),
      (allocBufLoop fuel st cnt evs).res = AllocRes.exceeded →
      (allocBufLoop fuel st cnt evs).pinnedSeen = st.numBufs := by
  induction fuel with
  | zero =>
    intro st cnt evs h
    exact absurd h (by simp [allocBufLoop])
  | succ fuel ih =>
    intro st cnt evs h
    rcases Bool.eq_false_or_eq_true ((advanceClock st).desc (advanceClock st).clockHand).valid
      with hv | hv
    · rcases Bool.eq_false_or_eq_true ((advanceClock st).desc (advanceClock st).clockHand).refbit
        with hr | hr
      · rw [allocBufLoop_succ, allocVisit_refbit _ cnt hv hr] at h ⊢
        exact ih _ _ _ h
      · rcases Nat.eq_zero_or_pos ((advanceClock st).desc (advanceClock st).clockHand).pinCnt
          with hp | hp
        · rcases Bool.eq_false_or_eq_true
              ((advanceClock st).desc (advanceClock st).clockHand).dirty with hd | hd
          · cases hrm : htRemove (advanceClock st).hashTable
                (((advanceClock st).desc (advanceClock st).clockHand).file,
                 ((advanceClock st).desc (advanceClock st).clockHand).pageNo) with
            | none =>
              rw [allocBufLoop_succ, allocVisit_dirty_fail _ cnt hv hr hp hd hrm] at h
              exact absurd h (by simp)
            | some htbl =>
              rw [allocBufLoop_succ, allocVisit_dirty_ok _ cnt htbl hv hr hp hd hrm] at h
              exact absurd h (by simp)
          · rw [allocBufLoop_succ, allocVisit_clean _ cnt hv hr hp hd] at h
            exact absurd h (by simp)
        · by_cases hc : cnt + 1 = (advanceClock st).numBufs
          · rw [allocBufLoop_succ, allocVisit_pinned_throw _ cnt hv hr hp hc]
            exact hc
          · rw [allocBufLoop_succ, allocVisit_pinned_cont _ cnt hv hr hp hc] at h ⊢
            exact ih _ _ _ h
    · rw [allocBufLoop_succ, allocVisit_invalid _ cnt hv] at h
      exact absurd h (by simp)

theorem allocBufLoop_exceeded_frozen (fuel : Nat) :
    ∀ (st : BufMgr) (cnt : Nat) (evs : List Ev),
      (allocBufLoop fuel st cnt evs).res = AllocRes.exceeded →
      (allocBufLoop fuel st cnt evs).st.hashTable = st.hashTable
      ∧ (allocBufLoop fuel st cnt evs).st.bufPool = st.bufPool
      ∧ (allocBufLoop fuel st cnt evs).events = evs
      ∧ ∀ i, sameCore (st.desc i) ((allocBufLoop fuel st cnt evs).st.desc i) := by
  induction fuel with
  | zero =>
    intro st cnt evs h
    exact absurd h (by simp [allocBufLoop])
  | succ fuel ih =>
    intro st cnt evs h
    rcases Bool.eq_false_or_eq_true ((advanceClock st).desc (advanceClock st).clockHand).valid
      with hv | hv
    · rcases Bool.eq_false_or_eq_true ((advanceClock st).desc (advanceClock st).clockHand).refbit
        with hr | hr
      · rw [allocBufLoop_succ, allocVisit_refbit _ cnt hv hr] at h ⊢
        refine ⟨(ih _ _ _ h).1, (ih _ _ _ h).2.1, (ih _ _ _ h).2.2.1, ?_⟩
        intro i
        exact sameCore_trans
          (sameCore_clear_refbit (advanceClock st) (advanceClock st).clockHand i)
          ((ih _ _ _ h).2.2.2 i)
      · rcases Nat.eq_zero_or_pos ((advanceClock st).desc (advanceClock st).clockHand).pinCnt
          with hp | hp
        · rcases Bool.eq_false_or_eq_true
              ((advanceClock st).desc (advanceClock st).clockHand).dirty with hd | hd
          · cases hrm : htRemove (advanceClock st).hashTable
                (((advanceClock st).desc (advanceClock st).clockHand).file,
                 ((advanceClock st).desc (advanceClock st).clockHand).pageNo) with
            | none =>
              rw [allocBufLoop_succ, allocVisit_dirty_fail _ cnt hv hr hp hd hrm] at h
              exact absurd h (by simp)
            | some htbl =>
              rw [allocBufLoop_succ, allocVisit_dirty_ok _ cnt htbl hv hr hp hd hrm] at h
              exact absurd h (by simp)
          · rw [allocBufLoop_succ, allocVisit_clean _ cnt hv hr hp hd] at h
            exact absurd h (by simp)
        · by_cases hc : cnt + 1 = (advanceClock st).numBufs
          · rw [allocBufLoop_succ, allocVisit_pinned_throw _ cnt hv hr hp hc]
            exact ⟨rfl, rfl, by simp, fun i => sameCore_refl _⟩
          · rw [allocBufLoop_succ, allocVisit_pinned_cont _ cnt hv hr hp hc] at h ⊢
            exact ih _ _ _ h
    · rw [allocBufLoop_succ, allocVisit_invalid _ cnt hv] at h
      exact absurd h (by simp)

theorem allocBufLoop_dirty_track (fuel : Nat) :
    ∀ (st : BufMgr) (cnt : Nat) (evs : List Ev) (i : Nat),
      (st.desc i).valid = true → (st.desc i).dirty = true →
      (((allocBufLoop fuel st cnt evs).st.desc i).valid = true
        ∧ ((allocBufLoop fuel st cnt evs).st.desc i).dirty = true
        ∧ ((allocBufLoop fuel st cnt evs).st.desc i).file = (st.desc i).file
        ∧ ((allocBufLoop fuel st cnt evs).st.desc i).pageNo = (st.desc i).pageNo)
      ∨ Ev.writePage (st.desc i).file (st.desc i).pageNo
          ∈ (allocBufLoop fuel st cnt evs).events := by
  induction fuel with
  | zero =>
    intro st cnt evs i hv hd
    exact Or.inl ⟨hv, hd, rfl, rfl⟩
  | succ fuel ih =>
    intro st cnt evs i hv hd
    rcases Bool.eq_false_or_eq_true ((advanceClock st).desc (advanceClock st).clockHand).valid
      with hvc | hvc
    · rcases Bool.eq_false_or_eq_true ((advanceClock st).desc (advanceClock st).clockHand).refbit
        with hrc | hrc
      · rw [allocBufLoop_succ, allocVisit_refbit _ cnt hvc hrc]
        obtain ⟨hpin, hval, hdir, hfile, hpage, hfr⟩ :=
          sameCore_clear_refbit (advanceClock st) (advanceClock st).clockHand i
        have hv' := hval.trans hv
        have hd' := hdir.trans hd
        rcases ih _ cnt evs i hv' hd' with hL | hR
        · exact Or.inl ⟨hL.1, hL.2.1, hL.2.2.1.trans hfile, hL.2.2.2.trans hpage⟩
        · rw [hfile, hpage] at hR
          exact Or.inr hR
      · rcases Nat.eq_zero_or_pos ((advanceClock st).desc (advanceClock st).clockHand).pinCnt
          with hpc | hpc
        · rcases Bool.eq_false_or_eq_true
              ((advanceClock st).desc (advanceClock st).clockHand).dirty with hdc | hdc
          · cases hrm : htRemove (advanceClock st).hashTable
                (((advanceClock st).desc (advanceClock st).clockHand).file,
                 ((advanceClock st).desc (advanceClock st).clockHand).pageNo) with
            | none =>
              rw [allocBufLoop_succ, allocVisit_dirty_fail _ cnt hvc hrc hpc hdc hrm]
              by_cases hic : (advanceClock st).clockHand = i
              · subst hic
                exact Or.inr (by simp [desc_advanceClock])
              · exact Or.inl ⟨hv, hd, rfl, rfl⟩
            | some htbl =>
              rw [allocBufLoop_succ, allocVisit_dirty_ok _ cnt htbl hvc hrc hpc hdc hrm]
              by_cases hic : (advanceClock st).clockHand = i
              · subst hic
                exact Or.inr (by simp [desc_advanceClock])
              · refine Or.inl ?_
                rw [show ((setDesc (setHash (advanceClock st) htbl) (advanceClock st).clockHand
                      ((advanceClock st).desc (advanceClock st).clockHand).Clear).desc i)
                    = st.desc i from
                  desc_setDesc_ne _ _ _ _ (fun hh => hic hh.symm)]
                exact ⟨hv, hd, rfl, rfl⟩
          · by_cases hic : (advanceClock st).clockHand = i
            · subst hic
              rw [desc_advanceClock] at hdc
              rw [hd] at hdc
              exact absurd hdc (by simp)
            · rw [allocBufLoop_succ, allocVisit_clean _ cnt hvc hrc hpc hdc]
              refine Or.inl ?_
              rw [show ((setDesc (advanceClock st) (advanceClock st).clockHand
                    ((advanceClock st).desc (advanceClock st).clockHand).Clear).desc i)
                  = st.desc i from
                desc_setDesc_ne _ _ _ _ (fun hh => hic hh.symm)]
              exact ⟨hv, hd, rfl, rfl⟩
        · by_cases hc : cnt + 1 = (advanceClock st).numBufs
          · rw [allocBufLoop_succ, allocVisit_pinned_throw _ cnt hvc hrc hpc hc]
            exact Or.inl ⟨hv, hd, rfl, rfl⟩
          · rw [allocBufLoop_succ, allocVisit_pinned_cont _ cnt hvc hrc hpc hc]
            exact ih _ _ _ i hv hd
    · by_cases hic : (advanceClock st).clockHand = i
      · subst hic
        rw [desc_advanceClock] at hvc
        rw [hv] at hvc
        exact absurd hvc (by simp)
      · rw [allocBufLoop_succ, allocVisit_invalid _ cnt hvc]
        refine Or.inl ?_
        rw [show ((setDesc (advanceClock st) (advanceClock st).clockHand
              (((advanceClock st).desc (advanceClock st).clockHand).Set
                ((advanceClock st).desc (advanceClock st).clockHand).file
                ((advanceClock st).desc (advanceClock st).clockHand).pageNo)).desc i)
            = st.desc i from
          desc_setDesc_ne _ _ _ _ (fun hh => hic hh.symm)]
        exact ⟨hv, hd, rfl, rfl⟩

theorem allocBufLoop_ok_clean (fuel : Nat) :
    ∀ (st : BufMgr) (cnt : Nat) (evs : List Ev) (fr : Nat), wfP st →
      (allocBufLoop fuel st cnt evs).res = AllocRes.ok fr →
      ((allocBufLoop fuel st cnt evs).st.desc fr).dirty = false := by
  induction fuel with
  | zero =>
    intro st cnt evs fr hw h
    exact absurd h (by simp [allocBufLoop])
  | succ fuel ih =>
    intro st cnt evs fr hw h
    rcases Bool.eq_false_or_eq_true ((advanceClock st).desc (advanceClock st).clockHand).valid
      with hvc | hvc
    · rcases Bool.eq_false_or_eq_true ((advanceClock st).desc (advanceClock st).clockHand).refbit
        with hrc | hrc
      · rw [allocBufLoop_succ, allocVisit_refbit _ cnt hvc hrc] at h ⊢
        exact ih _ cnt evs fr (wfP_setDesc (advanceClock st) _ _ hw rfl) h
      · rcases Nat.eq_zero_or_pos ((advanceClock st).desc (advanceClock st).clockHand).pinCnt
          with hpc | hpc
        · have hlt : (advanceClock st).clockHand < st.bufDescTable.length :=
            desc_valid_lt (advanceClock st) (advanceClock st).clockHand hvc
          rcases Bool.eq_false_or_eq_true
              ((advanceClock st).desc (advanceClock st).clockHand).dirty with hdc | hdc
          · cases hrm : htRemove (advanceClock st).hashTable
                (((advanceClock st).desc (advanceClock st).clockHand).file,
                 ((advanceClock st).desc (advanceClock st).clockHand).pageNo) with
            | none =>
              rw [allocBufLoop_succ, allocVisit_dirty_fail _ cnt hvc hrc hpc hdc hrm] at h
              exact absurd h (by simp)
            | some htbl =>
              rw [allocBufLoop_succ, allocVisit_dirty_ok _ cnt htbl hvc hrc hpc hdc hrm] at h ⊢
              have hfr : ((advanceClock st).desc (advanceClock st).clockHand).frameNo = fr := by
                have h' : AllocRes.ok ((advanceClock st).desc (advanceClock st).clockHand).frameNo
                    = AllocRes.ok fr := h
                injection h'
              have hfrc : ((advanceClock st).desc (advanceClock st).clockHand).frameNo
                  = (advanceClock st).clockHand := hw.2 _ (by rw [← hw.1]; exact hlt)
              have hgoal : ((setDesc (setHash (advanceClock st) htbl) (advanceClock st).clockHand
                  ((advanceClock st).desc (advanceClock st).clockHand).Clear).desc
                    ((advanceClock st).desc (advanceClock st).clockHand).frameNo).dirty
                  = false := by
                have hlt2 : (advanceClock st).clockHand
                    < (setHash (advanceClock st) htbl).bufDescTable.length := hlt
                rw [hfrc, desc_setDesc_self _ _ _ hlt2]
                rfl
              rw [← hfr]
              exact hgoal
          · rw [allocBufLoop_succ, allocVisit_clean _ cnt hvc hrc hpc hdc] at h ⊢
            have hfr : ((advanceClock st).desc (advanceClock st).clockHand).frameNo = fr := by
              have h' : AllocRes.ok ((advanceClock st).desc (advanceClock st).clockHand).frameNo
                  = AllocRes.ok fr := h
              injection h'
            have hfrc : ((advanceClock st).desc (advanceClock st).clockHand).frameNo
                = (advanceClock st).clockHand := hw.2 _ (by rw [← hw.1]; exact hlt)
            have hgoal : ((setDesc (advanceClock st) (advanceClock st).clockHand
                ((advanceClock st).desc (advanceClock st).clockHand).Clear).desc
                  ((advanceClock st).desc (advanceClock st).clockHand).frameNo).dirty
                = false := by
              have hlt1 : (advanceClock st).clockHand
                  < (advanceClock st).bufDescTable.length := hlt
              rw [hfrc, desc_setDesc_self _ _ _ hlt1]
              rfl
            rw [← hfr]
            exact hgoal
        · by_cases hc : cnt + 1 = (advanceClock st).numBufs
          · rw [allocBufLoop_succ, allocVisit_pinned_throw _ cnt hvc hrc hpc hc] at h
            exact absurd h (by simp)
          · rw [allocBufLoop_succ, allocVisit_pinned_cont _ cnt hvc hrc hpc hc] at h ⊢
            exact ih _ _ evs fr hw h
    · rw [allocBufLoop_succ, allocVisit_invalid _ cnt hvc] at h ⊢
      have hfr : ((advanceClock st).desc (advanceClock st).clockHand).frameNo = fr := by
        have h' : AllocRes.ok ((advanceClock st).desc (advanceClock st).clockHand).frameNo
            = AllocRes.ok fr := h
        injection h'
      rcases Nat.eq_zero_or_pos st.numBufs with h0 | hpos
      · have hlen : st.bufDescTable.length = 0 := by rw [hw.1, h0]
        have hoob : (setDesc (advanceClock st) (advanceClock st).clockHand
            (((advanceClock st).desc (advanceClock st).clockHand).Set
              ((advanceClock st).desc (advanceClock st).clockHand).file
              ((advanceClock st).desc (advanceClock st).clockHand).pageNo)).bufDescTable.length
            ≤ fr := by
          rw [length_setDesc]
          show st.bufDescTable.length ≤ fr
          rw [hlen]
          exact Nat.zero_le fr
        have hgoal : ((setDesc (advanceClock st) (advanceClock st).clockHand
            (((advanceClock st).desc (advanceClock st).clockHand).Set
              ((advanceClock st).desc (advanceClock st).clockHand).file
              ((advanceClock st).desc (advanceClock st).clockHand).pageNo)).desc fr).dirty
            = false := by
          rw [desc_oob _ _ hoob]
          rfl
        exact hgoal
      · have hcn : (advanceClock st).clockHand < st.numBufs := by
          show (st.clockHand + 1) % st.numBufs < st.numBufs
          exact Nat.mod_lt _ hpos
        have hlt : (advanceClock st).clockHand < st.bufDescTable.length := by
          rw [hw.1]; exact hcn
        have hfrc : ((advanceClock st).desc (advanceClock st).clockHand).frameNo
            = (advanceClock st).clockHand := hw.2 _ hcn
        have hgoal : ((setDesc (advanceClock st) (advanceClock st).clockHand
            (((advanceClock st).desc (advanceClock st).clockHand).Set
              ((advanceClock st).desc (advanceClock st).clockHand).file
              ((advanceClock st).desc (advanceClock st).clockHand).pageNo)).desc
              ((advanceClock st).desc (advanceClock st).clockHand).frameNo).dirty
            = false := by
          have hlt1 : (advanceClock st).clockHand
              < (advanceClock st).bufDescTable.length := hlt
          rw [hfrc, desc_setDesc_self _ _ _ hlt1]
          rfl
        rw [← hfr]
        exact hgoal

theorem flushWB_hashTable (st : BufMgr) (i : Nat) : (flushWB st i).hashTable = st.hashTable := by
  unfold flushWB
  split <;> rfl

theorem flushWB_length (st : BufMgr) (i : Nat) :
    (flushWB st i).bufDescTable.length = st.bufDescTable.length := by
  unfold flushWB
  split
  · exact length_setDesc _ _ _
  · rfl

theorem flushWB_desc_ne (st : BufMgr) (i j : Nat) (h : j ≠ i) :
    (flushWB st i).desc j = st.desc j := by
  unfold flushWB
  split
  · exact desc_setDesc_ne _ _ _ _ h
  · rfl

theorem flushLoop_skip (f k i : Nat) (st : BufMgr) (evs : List Ev)
    (h : ¬ (st.desc i).file = some f) :
    flushLoop f (k + 1) i st evs = flushLoop f k (i + 1) st evs := by
  simp [flushLoop, h]

theorem flushLoop_badBuffer (f k i : Nat) (st : BufMgr) (evs : List Ev)
    (h1 : (st.desc i).file = some f) (h2 : (st.desc i).valid = false) :
    flushLoop f (k + 1) i st evs =
      ⟨st, evs, Outcome.threw (Exn.badBuffer (st.desc i).frameNo (st.desc i).dirty
        (st.desc i).valid (st.desc i).refbit)⟩ := by
  simp [flushLoop, h1, h2]

theorem flushLoop_pinned (f k i : Nat) (st : BufMgr) (evs : List Ev)
    (h1 : (st.desc i).file = some f) (h2 : (st.desc i).valid = true)
    (h3 : 0 < (st.desc i).pinCnt) :
    flushLoop f (k + 1) i st evs =
      ⟨st, evs, Outcome.threw (Exn.pagePinned f (st.desc i).pageNo (st.desc i).frameNo)⟩ := by
  simp [flushLoop, h1, h2, h3]

theorem flushLoop_victim_fail (f k i : Nat) (st : BufMgr) (evs : List Ev)
    (h1 : (st.desc i).file = some f) (h2 : (st.desc i).valid = true)
    (h3 : (st.desc i).pinCnt = 0)
    (hrm : htRemove (flushWB st i).hashTable (some f, (st.desc i).pageNo) = none) :
    flushLoop f (k + 1) i st evs =
      ⟨flushWB st i, evs ++ flushWBev st i ++ [Ev.diag DiagKind.hashNotFound],
       Outcome.normal⟩ := by
  simp [flushLoop, h1, h2, h3, hrm]

theorem flushLoop_victim_ok (f k i : Nat) (st : BufMgr) (evs : List Ev) (htbl : HashTbl)
    (h1 : (st.desc i).file = some f) (h2 : (st.desc i).valid = true)
    (h3 : (st.desc i).pinCnt = 0)
    (hrm : htRemove (flushWB st i).hashTable (some f, (st.desc i).pageNo) = some htbl) :
    flushLoop f (k + 1) i st evs =
      flushLoop f k (i + 1)
        (setDesc (setHash (flushWB st i) htbl) i ((flushWB st i).desc i).Clear)
        (evs ++ flushWBev st i) := by
  simp [flushLoop, h1, h2, h3, hrm]

theorem flushLoop_mono_events (f : Nat) :
    ∀ (k i : Nat) (st : BufMgr) (evs : List Ev) (e : Ev),
      e ∈ evs → e ∈ (flushLoop f k i st evs).events := by
  intro k
  induction k with
  | zero =>
    intro i st evs e he
    exact he
  | succ k ih =>
    intro i st evs e he
    by_cases h1 : (st.desc i).file = some f
    · rcases Bool.eq_false_or_eq_true (st.desc i).valid with h2 | h2
      · rcases Nat.eq_zero_or_pos (st.desc i).pinCnt with h3 | h3
        · cases hrm : htRemove (flushWB st i).hashTable (some f, (st.desc i).pageNo) with
          | none =>
            rw [flushLoop_victim_fail f k i st evs h1 h2 h3 hrm]
            simp only [List.mem_append]
            exact Or.inl (Or.inl he)
          | some htbl =>
            rw [flushLoop_victim_ok f k i st evs htbl h1 h2 h3 hrm]
            exact ih _ _ _ e (by simp only [List.mem_append]; exact Or.inl he)
        · rw [flushLoop_pinned f k i st evs h1 h2 h3]
          exact he
      · rw [flushLoop_badBuffer f k i st evs h1 h2]
        exact he
    · rw [flushLoop_skip f k i st evs h1]
      exact ih _ _ _ e he

theorem flushLoop_dirty_track (f : Nat) :
    ∀ (k i0 : Nat) (st : BufMgr) (evs : List Ev) (i : Nat),
      (st.desc i).valid = true → (st.desc i).dirty = true →
      (((flushLoop f k i0 st evs).st.desc i).valid = true
        ∧ ((flushLoop f k i0 st evs).st.desc i).dirty = true)
      ∨ Ev.writePage (st.desc i).file (st.desc i).pageNo ∈ (flushLoop f k i0 st evs).events := by
  intro k
  induction k with
  | zero =>
    intro i0 st evs i hv hd
    exact Or.inl ⟨hv, hd⟩
  | succ k ih =>
    intro i0 st evs i hv hd
    by_cases h1 : (st.desc i0).file = some f
    · rcases Bool.eq_false_or_eq_true (st.desc i0).valid with h2 | h2
      · rcases Nat.eq_zero_or_pos (st.desc i0).pinCnt with h3 | h3
        · by_cases hii : i0 = i
          · subst hii
            have hwb : flushWBev st i0 =
                [Ev.writePage (st.desc i0).file (st.desc i0).pageNo] := by
              simp [flushWBev, hd]
            cases hrm : htRemove (flushWB st i0).hashTable (some f, (st.desc i0).pageNo) with
            | none =>
              rw [flushLoop_victim_fail f k i0 st evs h1 h2 h3 hrm]
              refine Or.inr ?_
              rw [hwb]
              simp
            | some htbl =>
              rw [flushLoop_victim_ok f k i0 st evs htbl h1 h2 h3 hrm]
              refine Or.inr (flushLoop_mono_events f k (i0 + 1) _ _ _ ?_)
              rw [hwb]
              simp
          · have hne : i ≠ i0 := fun hh => hii hh.symm
            cases hrm : htRemove (flushWB st i0).hashTable (some f, (st.desc i0).pageNo) with
            | none =>
              rw [flushLoop_victim_fail f k i0 st evs h1 h2 h3 hrm]
              refine Or.inl ?_
              rw [show (flushWB st i0).desc i = st.desc i from flushWB_desc_ne st i0 i hne]
              exact ⟨hv, hd⟩
            | some htbl =>
              rw [flushLoop_victim_ok f k i0 st evs htbl h1 h2 h3 hrm]
              have heq : (setDesc (setHash (flushWB st i0) htbl) i0
                  ((flushWB st i0).desc i0).Clear).desc i = st.desc i := by
                rw [desc_setDesc_ne _ _ _ _ hne, desc_setHash, flushWB_desc_ne st i0 i hne]
              have hv' : ((setDesc (setHash (flushWB st i0) htbl) i0
                  ((flushWB st i0).desc i0).Clear).desc i).valid = true := by rw [heq]; exact hv
              have hd' : ((setDesc (setHash (flushWB st i0) htbl) i0
                  ((flushWB st i0).desc i0).Clear).desc i).dirty = true := by rw [heq]; exact hd
              rcases ih (i0 + 1) _ (evs ++ flushWBev st i0) i hv' hd' with hL | hR
              · exact Or.inl hL
              · rw [heq] at hR
                exact Or.inr hR
        · rw [flushLoop_pinned f k i0 st evs h1 h2 h3]
          exact Or.inl ⟨hv, hd⟩
      · rw [flushLoop_badBuffer f k i0 st evs h1 h2]
        exact Or.inl ⟨hv, hd⟩
    · rw [flushLoop_skip f k i0 st evs h1]
      exact ih (i0 + 1) st evs i hv hd

theorem unPinPage_dirty_preserved (st : BufMgr) (file : Option Nat) (p : Nat) (d : Bool)
    (i : Nat) (hd : (st.desc i).dirty = true) :
    ((unPinPage st file p d).st.desc i).dirty = true := by
  cases file with
  | none => exact hd
  | some f =>
    cases hlk : htLookup st.hashTable (some f, p) with
    | none =>
      have heq : unPinPage st (some f) p d = ⟨st, [], Outcome.normal⟩ := by
        simp [unPinPage, hlk]
      rw [heq]
      exact hd
    | some j =>
      by_cases hp : 0 < (st.desc j).pinCnt
      · have heq : unPinPage st (some f) p d =
            ⟨setDesc st j
               { st.desc j with
                 pinCnt := (st.desc j).pinCnt - 1,
                 dirty := if d then true else (st.desc j).dirty },
             [], Outcome.normal⟩ := by
          simp [unPinPage, hlk, hp]
        rw [heq]
        by_cases hij : i = j
        · subst hij
          have hlt : i < st.bufDescTable.length := by
            by_contra hlt
            rw [desc_oob st i (Nat.le_of_not_lt hlt)] at hp
            exact absurd hp (by decide)
          show ((setDesc st i _).desc i).dirty = true
          rw [desc_setDesc_self _ _ _ hlt]
          cases d <;> simp [hd]
        · show ((setDesc st j _).desc i).dirty = true
          rw [desc_setDesc_ne _ _ _ _ hij]
          exact hd
      · have heq : unPinPage st (some f) p d = ⟨st, [], Outcome.threw (Exn.pageNotPinned f p j)⟩ := by
          simp [unPinPage, hlk, hp]
        rw [heq]
        exact hd

theorem allocBuf_dirty_track (st : BufMgr) (i : Nat) (hv : (st.desc i).valid = true)
    (hd : (st.desc i).dirty = true) :
    (((allocBuf st).st.desc i).valid = true ∧ ((allocBuf st).st.desc i).dirty = true
      ∧ ((allocBuf st).st.desc i).file = (st.desc i).file
      ∧ ((allocBuf st).st.desc i).pageNo = (st.desc i).pageNo)
    ∨ Ev.writePage (st.desc i).file (st.desc i).pageNo ∈ (allocBuf st).events :=
  allocBufLoop_dirty_track _ st 0 [] i hv hd

theorem allocBuf_ok_clean (st : BufMgr) (fr : Nat) (hw : wfP st)
    (h : (allocBuf st).res = AllocRes.ok fr) : ((allocBuf st).st.desc fr).dirty = false :=
  allocBufLoop_ok_clean _ st 0 [] fr hw h

/-- C7 (amended): the dirty flag of a valid frame is cleared by a public
operation only together with a `writePage` of that frame's page (the
write-back on eviction inside `allocBuf`, or in `flushFile`), except that
`disposePage` discards the flag with no write-back; and `unPinPage` never
clears the flag of any frame, whatever its `dirty` argument — in particular
an `unPinPage(..., dirty=false)` after an `unPinPage(..., dirty=true)` does
not clear it. -/
theorem C7_dirty_monotonic :
    (∀ (st : BufMgr) (op : Op) (i : Nat), wfP st →
      (st.desc i).valid = true → (st.desc i).dirty = true →
      ((applyOp st op).st.desc i).dirty = false →
      Ev.writePage (st.desc i).file (st.desc i).pageNo ∈ (applyOp st op).events
        ∨ ∃ f p, op = Op.disposePage f p)
    ∧ ∀ (st : BufMgr) (file : Option Nat) (p : Nat) (d : Bool) (i : Nat),
      (st.desc i).dirty = true → ((unPinPage st file p d).st.desc i).dirty = true := by
  constructor
  · intro st op i hw hv hd hc
    cases op with
    | readPage file p =>
      cases file with
      | none =>
        have hc' : (st.desc i).dirty = false := hc
        rw [hd] at hc'
        exact absurd hc' (by simp)
      | some f =>
        cases hlk : htLookup st.hashTable (some f, p) with
        | some j =>
          have hst : (applyOp st (Op.readPage (some f) p)).st
              = setDesc st j
                  { st.desc j with refbit := true, pinCnt := (st.desc j).pinCnt + 1 } := by
            simp [applyOp, readPage, hlk]
          rw [hst] at hc
          by_cases hij : i = j
          · subst hij
            have hlt : i < st.bufDescTable.length := desc_valid_lt st i hv
            rw [desc_setDesc_self _ _ _ hlt] at hc
            have hc' : (st.desc i).dirty = false := hc
            rw [hd] at hc'
            exact absurd hc' (by simp)
          · rw [desc_setDesc_ne _ _ _ _ hij] at hc
            rw [hd] at hc
            exact absurd hc (by simp)
        | none =>
          have hst : (applyOp st (Op.readPage (some f) p)).st
              = (readMiss f p (allocBuf st)).st := by
            simp [applyOp, readPage, hlk]
          have hev : (applyOp st (Op.readPage (some f) p)).events
              = (readMiss f p (allocBuf st)).events := by
            simp [applyOp, readPage, hlk]
          rw [hst] at hc
          rw [hev]
          cases hres : (allocBuf st).res with
          | exceeded =>
            have hst2 : (readMiss f p (allocBuf st)).st = (allocBuf st).st := by
              simp [readMiss, hres]
            have hev2 : (readMiss f p (allocBuf st)).events
                = (allocBuf st).events ++ [Ev.diag DiagKind.bufferExceeded] := by
              simp [readMiss, hres]
            rw [hst2] at hc
            rw [hev2]
            rcases allocBuf_dirty_track st i hv hd with hL | hR
            · rw [hL.2.1] at hc
              exact absurd hc (by simp)
            · exact Or.inl (by simp only [List.mem_append]; exact Or.inl hR)
          | silent =>
            have hst2 : (readMiss f p (allocBuf st)).st = (allocBuf st).st := by
              simp [readMiss, hres]
            have hev2 : (readMiss f p (allocBuf st)).events = (allocBuf st).events := by
              simp [readMiss, hres]
            rw [hst2] at hc
            rw [hev2]
            rcases allocBuf_dirty_track st i hv hd with hL | hR
            · rw [hL.2.1] at hc
              exact absurd hc (by simp)
            · exact Or.inl hR
          | fuelOut =>
            have hst2 : (readMiss f p (allocBuf st)).st = (allocBuf st).st := by
              simp [readMiss, hres]
            have hev2 : (readMiss f p (allocBuf st)).events = (allocBuf st).events := by
              simp [readMiss, hres]
            rw [hst2] at hc
            rw [hev2]
            rcases allocBuf_dirty_track st i hv hd with hL | hR
            · rw [hL.2.1] at hc
              exact absurd hc (by simp)
            · exact Or.inl hR
          | ok fr =>
            have hmiss : readMiss f p (allocBuf st)
                = readInstall (poolWrite (allocBuf st).st fr p) f p fr
                    ((allocBuf st).events ++ [Ev.readPage (some f) p]) := by
              simp [readMiss, hres]
            rw [hmiss] at hc ⊢
            cases hins : htInsert (poolWrite (allocBuf st).st fr p).hashTable (some f, p) fr with
            | none =>
              have hst2 : (readInstall (poolWrite (allocBuf st).st fr p) f p fr
                  ((allocBuf st).events ++ [Ev.readPage (some f) p])).st
                  = poolWrite (allocBuf st).st fr p := by
                simp [readInstall, hins]
              have hev2 : (readInstall (poolWrite (allocBuf st).st fr p) f p fr
                  ((allocBuf st).events ++ [Ev.readPage (some f) p])).events
                  = ((allocBuf st).events ++ [Ev.readPage (some f) p])
                      ++ [Ev.diag DiagKind.hashAlreadyPresent] := by
                simp [readInstall, hins]
              rw [hst2] at hc
              rw [hev2]
              rcases allocBuf_dirty_track st i hv hd with hL | hR
              · have hc' : ((allocBuf st).st.desc i).dirty = false := hc
                rw [hL.2.1] at hc'
                exact absurd hc' (by simp)
              · exact Or.inl (by simp only [List.mem_append]; exact Or.inl (Or.inl hR))
            | some htbl =>
              have hst2 : (readInstall (poolWrite (allocBuf st).st fr p) f p fr
                  ((allocBuf st).events ++ [Ev.readPage (some f) p])).st
                  = setDesc (setHash (poolWrite (allocBuf st).st fr p) htbl) fr
                      (((setHash (poolWrite (allocBuf st).st fr p) htbl).desc fr).Set
                        (some f) p) := by
                simp [readInstall, hins]
              have hev2 : (readInstall (poolWrite (allocBuf st).st fr p) f p fr
                  ((allocBuf st).events ++ [Ev.readPage (some f) p])).events
                  = (allocBuf st).events ++ [Ev.readPage (some f) p] := by
                simp [readInstall, hins]
              rw [hst2] at hc
              rw [hev2]
              rcases allocBuf_dirty_track st i hv hd with hL | hR
              · by_cases hif : i = fr
                · subst hif
                  have hclean := allocBuf_ok_clean st i hw hres
                  rw [hL.2.1] at hclean
                  exact absurd hclean (by simp)
                · rw [desc_setDesc_ne _ _ _ _ hif] at hc
                  have hc' : ((allocBuf st).st.desc i).dirty = false := hc
                  rw [hL.2.1] at hc'
                  exact absurd hc' (by simp)
              · exact Or.inl (by simp only [List.mem_append]; exact Or.inl hR)
    | unPinPage file p d =>
      have hpres := unPinPage_dirty_preserved st file p d i hd
      have hc' : ((unPinPage st file p d).st.desc i).dirty = false := hc
      rw [hpres] at hc'
      exact absurd hc' (by simp)
    | allocPage file n =>
      cases file with
      | none =>
        have hc' : (st.desc i).dirty = false := hc
        rw [hd] at hc'
        exact absurd hc' (by simp)
      | some f =>
        have hst : (applyOp st (Op.allocPage (some f) n)).st
            = (allocDispatch f n [Ev.allocatePage f n] (allocBuf st)).st := by
          simp [applyOp, allocPage]
        have hev : (applyOp st (Op.allocPage (some f) n)).events
            = (allocDispatch f n [Ev.allocatePage f n] (allocBuf st)).events := by
          simp [applyOp, allocPage]
        rw [hst] at hc
        rw [hev]
        cases hres : (allocBuf st).res with
        | exceeded =>
          have hst2 : (allocDispatch f n [Ev.allocatePage f n] (allocBuf st)).st
              = (allocBuf st).st := by simp [allocDispatch, hres]
          have hev2 : (allocDispatch f n [Ev.allocatePage f n] (allocBuf st)).events
              = [Ev.allocatePage f n] ++ (allocBuf st).events := by simp [allocDispatch, hres]
          rw [hst2] at hc
          rw [hev2]
          rcases allocBuf_dirty_track st i hv hd with hL | hR
          · rw [hL.2.1] at hc
            exact absurd hc (by simp)
          · exact Or.inl (by simp only [List.mem_append]; exact Or.inr hR)
        | silent =>
          have hst2 : (allocDispatch f n [Ev.allocatePage f n] (allocBuf st)).st
              = (allocBuf st).st := by simp [allocDispatch, hres]
          have hev2 : (allocDispatch f n [Ev.allocatePage f n] (allocBuf st)).events
              = [Ev.allocatePage f n] ++ (allocBuf st).events := by simp [allocDispatch, hres]
          rw [hst2] at hc
          rw [hev2]
          rcases allocBuf_dirty_track st i hv hd with hL | hR
          · rw [hL.2.1] at hc
            exact absurd hc (by simp)
          · exact Or.inl (by simp only [List.mem_append]; exact Or.inr hR)
        | fuelOut =>
          have hst2 : (allocDispatch f n [Ev.allocatePage f n] (allocBuf st)).st
              = (allocBuf st).st := by simp [allocDispatch, hres]
          have hev2 : (allocDispatch f n [Ev.allocatePage f n] (allocBuf st)).events
              = [Ev.allocatePage f n] ++ (allocBuf st).events := by simp [allocDispatch, hres]
          rw [hst2] at hc
          rw [hev2]
          rcases allocBuf_dirty_track st i hv hd with hL | hR
          · rw [hL.2.1] at hc
            exact absurd hc (by simp)
          · exact Or.inl (by simp only [List.mem_append]; exact Or.inr hR)
        | ok fr =>
          have hdisp : allocDispatch f n [Ev.allocatePage f n] (allocBuf st)
              = allocInstall (poolWrite (allocBuf st).st fr n) f n fr
                  ([Ev.allocatePage f n] ++ (allocBuf st).events) := by
            simp [allocDispatch, hres]
          rw [hdisp] at hc ⊢
          cases hins : htInsert (poolWrite (allocBuf st).st fr n).hashTable (some f, n) fr with
          | none =>
            have hst2 : (allocInstall (poolWrite (allocBuf st).st fr n) f n fr
                ([Ev.allocatePage f n] ++ (allocBuf st).events)).st
                = poolWrite (allocBuf st).st fr n := by simp [allocInstall, hins]
            have hev2 : (allocInstall (poolWrite (allocBuf st).st fr n) f n fr
                ([Ev.allocatePage f n] ++ (allocBuf st).events)).events
                = ([Ev.allocatePage f n] ++ (allocBuf st).events)
                    ++ [Ev.diag DiagKind.hashAlreadyPresent] := by simp [allocInstall, hins]
            rw [hst2] at hc
            rw [hev2]
            rcases allocBuf_dirty_track st i hv hd with hL | hR
            · have hc' : ((allocBuf st).st.desc i).dirty = false := hc
              rw [hL.2.1] at hc'
              exact absurd hc' (by simp)
            · exact Or.inl (by simp only [List.mem_append]; exact Or.inl (Or.inr hR))
          | some htbl =>
            have hst2 : (allocInstall (poolWrite (allocBuf st).st fr n) f n fr
                ([Ev.allocatePage f n] ++ (allocBuf st).events)).st
                = setDesc (setHash (poolWrite (allocBuf st).st fr n) htbl) fr
                    (((setHash (poolWrite (allocBuf st).st fr n) htbl).desc fr).Set
                      (some f) n) := by simp [allocInstall, hins]
            have hev2 : (allocInstall (poolWrite (allocBuf st).st fr n) f n fr
                ([Ev.allocatePage f n] ++ (allocBuf st).events)).events
                = [Ev.allocatePage f n] ++ (allocBuf st).events := by simp [allocInstall, hins]
            rw [hst2] at hc
            rw [hev2]
            rcases allocBuf_dirty_track st i hv hd with hL | hR
            · by_cases hif : i = fr
              · subst hif
                have hclean := allocBuf_ok_clean st i hw hres
                rw [hL.2.1] at hclean
                exact absurd hclean (by simp)
              · rw [desc_setDesc_ne _ _ _ _ hif] at hc
                have hc' : ((allocBuf st).st.desc i).dirty = false := hc
                rw [hL.2.1] at hc'
                exact absurd hc' (by simp)
            · exact Or.inl (by simp only [List.mem_append]; exact Or.inr hR)
    | disposePage file p =>
      exact Or.inr ⟨file, p, rfl⟩
    | flushFile file =>
      cases file with
      | none =>
        have hc' : (st.desc i).dirty = false := hc
        rw [hd] at hc'
        exact absurd hc' (by simp)
      | some f =>
        have hc' : ((flushLoop f st.numBufs 0 st []).st.desc i).dirty = false := hc
        rcases flushLoop_dirty_track f st.numBufs 0 st [] i hv hd with hL | hR
        · rw [hL.2] at hc'
          exact absurd hc' (by simp)
        · refine Or.inl ?_
          show Ev.writePage (st.desc i).file (st.desc i).pageNo
            ∈ (flushLoop f st.numBufs 0 st []).events
          exact hR
  · intro st file p d i hd
    exact unPinPage_dirty_preserved st file p d i hd

theorem allocBuf_exceeded_frozen (st : BufMgr) (hx : (allocBuf st).res = AllocRes.exceeded) :
    (allocBuf st).st.hashTable = st.hashTable ∧ (allocBuf st).st.bufPool = st.bufPool
    ∧ (allocBuf st).events = [] ∧ ∀ i, sameCore (st.desc i) ((allocBuf st).st.desc i) :=
  allocBufLoop_exceeded_frozen _ st 0 [] hx

/-- C1: refuted on the code (code bug). From a state satisfying all six
invariants of spec section 3 (one clean, unpinned, valid frame holding page 1
of file 1, with its index entry), `readPage(file 1, page 2)` returns
normally, yet invariant 1 no longer holds afterwards: the clean eviction
inside `allocBuf` cleared the frame without removing the old index entry, so
the entry `((1,1) ↦ 0)` now names a frame holding a different page. -/
theorem C1_invariant_violated :
    invAll stCleanVictim = true
    ∧ (readPage stCleanVictim (some 1) 2).outcome = Outcome.normal
    ∧ inv1 (readPage stCleanVictim (some 1) 2).st = false := by decide

/-- C2: refuted on the code (code bug). When `allocBuf` evicts a clean valid
victim (valid, refbit clear, unpinned, not dirty), it returns the frame with
the descriptor cleared but the frame's `(file, pageNo)` index entry still
present: the `hashTable->remove` is applied only on the dirty path. -/
theorem C2_clean_eviction_keeps_entry :
    invAll stCleanVictim = true
    ∧ (allocBuf stCleanVictim).res = AllocRes.ok 0
    ∧ ((allocBuf stCleanVictim).st.desc 0).valid = false
    ∧ htLookup (allocBuf stCleanVictim).st.hashTable (some 1, 1) = some 0
    ∧ (allocBuf stCleanVictim).events = [] := by decide

/-- C3: refuted on the code (code bug). When the clock sweep lands on an
invalid frame, `allocBuf` does not return it untouched: it calls `Set` with
the frame's own stale `file`/`pageNo`, so the returned frame comes back
valid, pinned once and with `refbit` set, rather than invalid-but-selected
as the claim (and spec section 4.3) states. -/
theorem C3_invalid_branch_sets_metadata :
    (stFresh.desc 0).valid = false
    ∧ (allocBuf stFresh).res = AllocRes.ok 0
    ∧ ((allocBuf stFresh).st.desc 0).valid = true
    ∧ ((allocBuf stFresh).st.desc 0).pinCnt = 1
    ∧ ((allocBuf stFresh).st.desc 0).refbit = true := by decide

/-- C4 counterexample: `allocBuf` raises `BufferExceeded` although frame 1 is
valid and unpinned throughout (and at the moment of the raise also has
`refbit = false`, i.e. is evictable): with 2 frames — frame 0 pinned, frame 1
unpinned with `refbit` set — the sweep counts frame 0 twice, once before and
once after clearing frame 1's refbit, and the counter reaches `numBufs`. -/
theorem C4_cex :
    (allocBuf stHalfPinned).res = AllocRes.exceeded
    ∧ (stHalfPinned.desc 1).valid = true
    ∧ (stHalfPinned.desc 1).pinCnt = 0
    ∧ ((allocBuf stHalfPinned).st.desc 1).valid = true
    ∧ ((allocBuf stHalfPinned).st.desc 1).pinCnt = 0
    ∧ ((allocBuf stHalfPinned).st.desc 1).refbit = false := by decide

/-- C4 (amended): `allocBuf` raises `BufferExceeded` only when its running
count of observations of pinned frames (valid, refbit clear, `pinCnt > 0`)
since entry reaches `numBufs`; a frame can be observed more than once within
one call (again after a revolution that cleared refbits), so the raise does
not imply that every frame is pinned. On that path no page was written back
and the index is untouched. -/
theorem C4_exceeded_count (st : BufMgr) (hx : (allocBuf st).res = AllocRes.exceeded) :
    (allocBuf st).pinnedSeen = st.numBufs
    ∧ (allocBuf st).events = []
    ∧ (allocBuf st).st.hashTable = st.hashTable := by
  obtain ⟨hh, _, hev, _⟩ := allocBuf_exceeded_frozen st hx
  exact ⟨allocBufLoop_exceeded_count _ st 0 [] hx, hev, hh⟩

/-- C4 witness: on the two-frame half-pinned pool the raise happens with the
pinned counter at `numBufs = 2`. -/
theorem C4_exceeded_count_witness :
    (allocBuf stHalfPinned).pinnedSeen = stHalfPinned.numBufs
    ∧ (allocBuf stHalfPinned).events = []
    ∧ (allocBuf stHalfPinned).st.hashTable = stHalfPinned.hashTable :=
  C4_exceeded_count stHalfPinned (by decide)

/-- C5 counterexample: on a miss with the single frame pinned, `allocBuf`
raises `BufferExceeded`, but `readPage` catches it: the call returns with
outcome `normal` (no exception reaches the caller), the `page` out-parameter
unassigned, and only a diagnostic printed. -/
theorem C5_cex :
    htLookup stAllPinned.hashTable (some 1, 2) = none
    ∧ (allocBuf stAllPinned).res = AllocRes.exceeded
    ∧ (readPage stAllPinned (some 1) 2).outcome = Outcome.normal
    ∧ (readPage stAllPinned (some 1) 2).page = none
    ∧ (readPage stAllPinned (some 1) 2).events = [Ev.diag DiagKind.bufferExceeded] := by decide

/-- C5 (amended): when `readPage` misses in the index and `allocBuf` raises
`BufferExceeded`, `readPage` catches the exception, prints a diagnostic and
returns normally with the `page` out-parameter unassigned and the index
unchanged; the error is not reported to the caller. -/
theorem C5_swallowed (st : BufMgr) (f p : Nat)
    (hmiss : htLookup st.hashTable (some f, p) = none)
    (hx : (allocBuf st).res = AllocRes.exceeded) :
    (readPage st (some f) p).outcome = Outcome.normal
    ∧ (readPage st (some f) p).page = none
    ∧ (readPage st (some f) p).events = [Ev.diag DiagKind.bufferExceeded]
    ∧ (readPage st (some f) p).st.hashTable = st.hashTable := by
  obtain ⟨hh, _, hev, _⟩ := allocBuf_exceeded_frozen st hx
  have heq : readPage st (some f) p
      = ⟨(allocBuf st).st, (allocBuf st).events ++ [Ev.diag DiagKind.bufferExceeded],
         Outcome.normal, none⟩ := by
    simp [readPage, hmiss, readMiss, hx]
  rw [heq]
  refine ⟨rfl, rfl, ?_, ?_⟩
  · show (allocBuf st).events ++ [Ev.diag DiagKind.bufferExceeded]
      = [Ev.diag DiagKind.bufferExceeded]
    rw [hev]
    rfl
  · show (allocBuf st).st.hashTable = st.hashTable
    exact hh

/-- C5 witness: the swallowed `BufferExceeded` on the one-frame fully pinned
pool. -/
theorem C5_swallowed_witness :
    (readPage stAllPinned (some 1) 2).outcome = Outcome.normal
    ∧ (readPage stAllPinned (some 1) 2).page = none
    ∧ (readPage stAllPinned (some 1) 2).events = [Ev.diag DiagKind.bufferExceeded]
    ∧ (readPage stAllPinned (some 1) 2).st.hashTable = stAllPinned.hashTable :=
  C5_swallowed stAllPinned 1 2 (by decide) (by decide)

/-- C6: confirmed. `flushFile` scans the frames in ascending order; for each
frame whose descriptor's file equals the argument, (a) if the frame is not
valid the scan stops with `BadBuffer(frame, dirty, valid, refbit)`; (b) if it
is valid with `pinCnt > 0` it stops with `PagePinned(file, pageNo, frame)`;
(c) otherwise (resident entry present) the page is written back exactly when
dirty (clearing the dirty flag), the index entry for `(file, pageNo)` is
removed, the descriptor is cleared, every other frame is untouched by this
step, and the scan continues with the next frame. -/
theorem C6_flushFile_per_frame (f : Nat) (st : BufMgr) (evs : List Ev) (k i : Nat)
    (hm : (st.desc i).file = some f) :
    (flushFile st (some f) = flushLoop f st.numBufs 0 st [])
    ∧ ((st.desc i).valid = false →
        flushLoop f (k + 1) i st evs =
          ⟨st, evs, Outcome.threw (Exn.badBuffer (st.desc i).frameNo (st.desc i).dirty
            (st.desc i).valid (st.desc i).refbit)⟩)
    ∧ ((st.desc i).valid = true → 0 < (st.desc i).pinCnt →
        flushLoop f (k + 1) i st evs =
          ⟨st, evs, Outcome.threw (Exn.pagePinned f (st.desc i).pageNo (st.desc i).frameNo)⟩)
    ∧ ((st.desc i).valid = true → (st.desc i).pinCnt = 0 →
        ∀ j, htLookup st.hashTable (some f, (st.desc i).pageNo) = some j →
        flushLoop f (k + 1) i st evs
            = flushLoop f k (i + 1) (flushCleared f st i) (evs ++ flushWBev st i)
        ∧ ((flushCleared f st i).desc i).valid = false
        ∧ ((flushCleared f st i).desc i).pinCnt = 0
        ∧ ((flushCleared f st i).desc i).dirty = false
        ∧ ((flushCleared f st i).desc i).refbit = false
        ∧ htLookup (flushCleared f st i).hashTable (some f, (st.desc i).pageNo) = none
        ∧ ((st.desc i).dirty = true →
            flushWBev st i = [Ev.writePage (some f) (st.desc i).pageNo])
        ∧ ((st.desc i).dirty = false → flushWBev st i = [])
        ∧ ∀ j', j' ≠ i → (flushCleared f st i).desc j' = st.desc j') := by
  refine ⟨rfl, ?_, ?_, ?_⟩
  · intro h2
    exact flushLoop_badBuffer f k i st evs hm h2
  · intro h2 h3
    exact flushLoop_pinned f k i st evs hm h2 h3
  · intro h2 h3 j hj
    have hrm : htRemove (flushWB st i).hashTable (some f, (st.desc i).pageNo)
        = some (htErase st.hashTable (some f, (st.desc i).pageNo)) := by
      rw [flushWB_hashTable]
      unfold htRemove
      rw [hj]
    have hlt : i < st.bufDescTable.length := desc_valid_lt st i h2
    have hlt2 : i < (setHash (flushWB st i)
        (htErase st.hashTable (some f, (st.desc i).pageNo))).bufDescTable.length := by
      show i < (flushWB st i).bufDescTable.length
      rw [flushWB_length]
      exact hlt
    have hdesc : (flushCleared f st i).desc i = ((flushWB st i).desc i).Clear := by
      unfold flushCleared
      exact desc_setDesc_self _ _ _ hlt2
    refine ⟨?_, ?_, ?_, ?_, ?_, ?_, ?_, ?_, ?_⟩
    · exact flushLoop_victim_ok f k i st evs _ hm h2 h3 hrm
    · rw [hdesc]; rfl
    · rw [hdesc]; rfl
    · rw [hdesc]; rfl
    · rw [hdesc]; rfl
    · show htLookup (htErase st.hashTable (some f, (st.desc i).pageNo))
        (some f, (st.desc i).pageNo) = none
      exact htLookup_erase _ _
    · intro hdt
      simp [flushWBev, hdt, hm]
    · intro hdt
      simp [flushWBev, hdt]
    · intro j' hj'
      unfold flushCleared
      rw [desc_setDesc_ne _ _ _ _ hj', desc_setHash, flushWB_desc_ne st i j' hj']

/-- C6 witness: on the one-frame pool with a dirty resident page of file 1,
the scan step at frame 0 takes the write-back path and hands the cleared
state to the rest of the scan. -/
theorem C6_flushFile_per_frame_witness :
    flushLoop 1 1 0 stDirty []
        = flushLoop 1 0 1 (flushCleared 1 stDirty 0) ([] ++ flushWBev stDirty 0)
    ∧ ((flushCleared 1 stDirty 0).desc 0).valid = false
    ∧ ((flushCleared 1 stDirty 0).desc 0).dirty = false := by
  have h := (C6_flushFile_per_frame 1 stDirty [] 0 0 (by decide)).2.2.2
      (by decide) (by decide) 0 (by decide)
  exact ⟨h.1, h.2.1, h.2.2.2.1⟩

/-- C7 counterexample: `disposePage` on a dirty resident page clears the
dirty flag with no `writePage` call at all (the only file call is
`deletePage`), so the flag does not remain set until a write-back. -/
theorem C7_cex :
    (stDirty.desc 0).valid = true
    ∧ (stDirty.desc 0).dirty = true
    ∧ ((disposePage stDirty (some 1) 1).st.desc 0).dirty = false
    ∧ (disposePage stDirty (some 1) 1).events = [Ev.deletePage (some 1) 1] := by decide

/-- C7 witness: flushing file 1 on the dirty one-frame pool clears the dirty
bit, and indeed the write-back event for that frame's page is in the trace. -/
theorem C7_dirty_monotonic_witness :
    Ev.writePage (stDirty.desc 0).file (stDirty.desc 0).pageNo
        ∈ (applyOp stDirty (Op.flushFile (some 1))).events
      ∨ ∃ f p, Op.flushFile (some 1) = Op.disposePage f p :=
  C7_dirty_monotonic.1 stDirty (Op.flushFile (some 1)) 0 ⟨rfl, by decide⟩
    (by decide) (by decide) (by decide)

/-- C8: confirmed. For a non-null file, `unPinPage` is a silent no-op when
`(file, pageNo)` is not resident; it fails with
`PageNotPinned(file, pageNo, frame)` exactly when the page is resident with
`pinCnt = 0`; and when resident with `pinCnt > 0` it returns normally,
decrements that frame's pin count by exactly one and leaves every other
frame unchanged. -/
theorem C8_unPinPage (st : BufMgr) (f p : Nat) (d : Bool) :
    (htLookup st.hashTable (some f, p) = none →
        unPinPage st (some f) p d = ⟨st, [], Outcome.normal⟩)
    ∧ (∀ i, htLookup st.hashTable (some f, p) = some i →
        ((st.desc i).pinCnt = 0 →
          unPinPage st (some f) p d = ⟨st, [], Outcome.threw (Exn.pageNotPinned f p i)⟩)
        ∧ (0 < (st.desc i).pinCnt →
          (unPinPage st (some f) p d).outcome = Outcome.normal
          ∧ ((unPinPage st (some f) p d).st.desc i).pinCnt = (st.desc i).pinCnt - 1
          ∧ ∀ j, j ≠ i → (unPinPage st (some f) p d).st.desc j = st.desc j))
    ∧ ((∃ i, (unPinPage st (some f) p d).outcome = Outcome.threw (Exn.pageNotPinned f p i))
        ↔ ∃ i, htLookup st.hashTable (some f, p) = some i ∧ (st.desc i).pinCnt = 0) := by
  refine ⟨?_, ?_, ?_⟩
  · intro hlk
    simp [unPinPage, hlk]
  · intro i hlk
    constructor
    · intro hp0
      have hnp : ¬ 0 < (st.desc i).pinCnt := by rw [hp0]; simp
      simp [unPinPage, hlk, hnp]
    · intro hp
      have heq : unPinPage st (some f) p d =
          ⟨setDesc st i
             { st.desc i with
               pinCnt := (st.desc i).pinCnt - 1,
               dirty := if d then true else (st.desc i).dirty },
           [], Outcome.normal⟩ := by
        simp [unPinPage, hlk, hp]
      rw [heq]
      refine ⟨rfl, ?_, ?_⟩
      · have hlt : i < st.bufDescTable.length := by
          by_contra hlt'
          rw [desc_oob st i (Nat.le_of_not_lt hlt')] at hp
          exact absurd hp (by decide)
        show ((setDesc st i _).desc i).pinCnt = (st.desc i).pinCnt - 1
        rw [desc_setDesc_self _ _ _ hlt]
      · intro j hj
        exact desc_setDesc_ne _ _ _ _ hj
  · constructor
    · rintro ⟨i, hi⟩
      cases hlk : htLookup st.hashTable (some f, p) with
      | none =>
        have heq : unPinPage st (some f) p d = ⟨st, [], Outcome.normal⟩ := by
          simp [unPinPage, hlk]
        rw [heq] at hi
        exact absurd hi (by simp)
      | some j =>
        by_cases hp : 0 < (st.desc j).pinCnt
        · have heq : unPinPage st (some f) p d =
              ⟨setDesc st j
                 { st.desc j with
                   pinCnt := (st.desc j).pinCnt - 1,
                   dirty := if d then true else (st.desc j).dirty },
               [], Outcome.normal⟩ := by
            simp [unPinPage, hlk, hp]
          rw [heq] at hi
          exact absurd hi (by simp)
        · exact ⟨j, rfl, Nat.eq_zero_of_not_pos hp⟩
    · rintro ⟨i, hlk, hp0⟩
      have hnp : ¬ 0 < (st.desc i).pinCnt := by rw [hp0]; simp
      have heq : unPinPage st (some f) p d
          = ⟨st, [], Outcome.threw (Exn.pageNotPinned f p i)⟩ := by
        simp [unPinPage, hlk, hnp]
      exact ⟨i, by rw [heq]⟩

/-- C8 witness: unpinning the already unpinned resident page 1 of file 1
fails with `PageNotPinned(1, 1, 0)`. -/
theorem C8_unPinPage_witness :
    unPinPage stCleanVictim (some 1) 1 false
      = ⟨stCleanVictim, [], Outcome.threw (Exn.pageNotPinned 1 1 0)⟩ :=
  ((C8_unPinPage stCleanVictim 1 1 false).2.1 0 (by decide)).1 (by decide)

/-- C9 counterexample: when `allocPage` propagates `BufferExceeded`, the
`pageNo` out-parameter is not left unassigned — it already carries the number
of the page reserved on disk — and buffer-pool state is not entirely
untouched either: the failed sweep cleared frame 0's refbit. -/
theorem C9_cex :
    (allocPage stPinnedRef (some 2) 7).outcome = Outcome.threw Exn.bufferExceeded
    ∧ (allocPage stPinnedRef (some 2) 7).pageNo = some 7
    ∧ (allocPage stPinnedRef (some 2) 7).page = none
    ∧ (stPinnedRef.desc 0).refbit = true
    ∧ ((allocPage stPinnedRef (some 2) 7).st.desc 0).refbit = false := by decide

/-- C9 (amended): `allocPage` calls `file->allocatePage()` (the first event
of the call) and assigns the `pageNo` out-parameter before `allocBuf` runs,
so when `allocBuf` raises `BufferExceeded` the exception propagates to the
caller with a new on-disk page already reserved and `pageNo` already
assigned; the `page` out-parameter is unassigned, the index, pool contents,
pin counts, validity, dirty flags and page identities are unchanged (only
refbits may have been cleared by the failed sweep). -/
theorem C9_allocPage_exceeded (st : BufMgr) (f n : Nat)
    (hx : (allocBuf st).res = AllocRes.exceeded) :
    (allocPage st (some f) n).outcome = Outcome.threw Exn.bufferExceeded
    ∧ (allocPage st (some f) n).pageNo = some n
    ∧ (allocPage st (some f) n).page = none
    ∧ (allocPage st (some f) n).events = [Ev.allocatePage f n]
    ∧ (allocPage st (some f) n).st.hashTable = st.hashTable
    ∧ (allocPage st (some f) n).st.bufPool = st.bufPool
    ∧ ∀ i, ((allocPage st (some f) n).st.desc i).pinCnt = (st.desc i).pinCnt
        ∧ ((allocPage st (some f) n).st.desc i).valid = (st.desc i).valid
        ∧ ((allocPage st (some f) n).st.desc i).dirty = (st.desc i).dirty
        ∧ ((allocPage st (some f) n).st.desc i).file = (st.desc i).file
        ∧ ((allocPage st (some f) n).st.desc i).pageNo = (st.desc i).pageNo := by
  obtain ⟨hh, hbp, hev, hcore⟩ := allocBuf_exceeded_frozen st hx
  have heq : allocPage st (some f) n
      = ⟨(allocBuf st).st, [Ev.allocatePage f n] ++ (allocBuf st).events,
         Outcome.threw Exn.bufferExceeded, some n, none⟩ := by
    simp [allocPage, allocDispatch, hx]
  rw [heq]
  refine ⟨rfl, rfl, rfl, ?_, ?_, ?_, ?_⟩
  · show [Ev.allocatePage f n] ++ (allocBuf st).events = [Ev.allocatePage f n]
    rw [hev]
    rfl
  · show (allocBuf st).st.hashTable = st.hashTable
    exact hh
  · show (allocBuf st).st.bufPool = st.bufPool
    exact hbp
  · intro i
    obtain ⟨h1, h2, h3, h4, h5, _⟩ := hcore i
    exact ⟨h1, h2, h3, h4, h5⟩

/-- C9 witness: on the one-frame pinned pool, `allocPage(file 2)` with fresh
page 7 throws `BufferExceeded` with `pageNo` already assigned to 7. -/
theorem C9_allocPage_exceeded_witness :
    (allocPage stPinnedRef (some 2) 7).outcome = Outcome.threw Exn.bufferExceeded
    ∧ (allocPage stPinnedRef (some 2) 7).pageNo = some 7
    ∧ (allocPage stPinnedRef (some 2) 7).page = none
    ∧ (allocPage stPinnedRef (some 2) 7).events = [Ev.allocatePage 2 7] := by
  have h := C9_allocPage_exceeded stPinnedRef 2 7 (by decide)
  exact ⟨h.1, h.2.1, h.2.2.1, h.2.2.2.1⟩

/-- C10: confirmed. For any resident `(file, pageNo)` — dirty or pinned or
not — `disposePage` clears the frame's descriptor and removes the index
entry without any `writePage` call (the event trace is exactly the
`deletePage` call), discarding in-memory modifications, and then asks the
file to delete the page. -/
theorem C10_disposePage (st : BufMgr) (f p i : Nat)
    (hl : htLookup st.hashTable (some f, p) = some i) :
    ((disposePage st (some f) p).st.desc i).valid = false
    ∧ ((disposePage st (some f) p).st.desc i).pinCnt = 0
    ∧ ((disposePage st (some f) p).st.desc i).dirty = false
    ∧ htLookup (disposePage st (some f) p).st.hashTable (some f, p) = none
    ∧ (disposePage st (some f) p).events = [Ev.deletePage (some f) p]
    ∧ (disposePage st (some f) p).outcome = Outcome.normal := by
  have hrm : htRemove (setDesc st i (st.desc i).Clear).hashTable (some f, p)
      = some (htErase st.hashTable (some f, p)) := by
    rw [hashTable_setDesc]
    unfold htRemove
    rw [hl]
  have heq : disposePage st (some f) p =
      ⟨setHash (setDesc st i (st.desc i).Clear) (htErase st.hashTable (some f, p)),
       [Ev.deletePage (some f) p], Outcome.normal⟩ := by
    simp [disposePage, hl, hrm]
  rw [heq]
  refine ⟨?_, ?_, ?_, ?_, rfl, rfl⟩
  · by_cases hlt : i < st.bufDescTable.length
    · have hdesc : (setHash (setDesc st i (st.desc i).Clear)
          (htErase st.hashTable (some f, p))).desc i = (st.desc i).Clear := by
        rw [desc_setHash]
        exact desc_setDesc_self _ _ _ hlt
      show ((setHash (setDesc st i (st.desc i).Clear)
        (htErase st.hashTable (some f, p))).desc i).valid = false
      rw [hdesc]
      rfl
    · show ((setHash (setDesc st i (st.desc i).Clear)
        (htErase st.hashTable (some f, p))).desc i).valid = false
      rw [desc_setHash, setDesc_oob _ _ _ (Nat.le_of_not_lt hlt),
        desc_oob _ _ (Nat.le_of_not_lt hlt)]
      rfl
  · by_cases hlt : i < st.bufDescTable.length
    · have hdesc : (setHash (setDesc st i (st.desc i).Clear)
          (htErase st.hashTable (some f, p))).desc i = (st.desc i).Clear := by
        rw [desc_setHash]
        exact desc_setDesc_self _ _ _ hlt
      show ((setHash (setDesc st i (st.desc i).Clear)
        (htErase st.hashTable (some f, p))).desc i).pinCnt = 0
      rw [hdesc]
      rfl
    · show ((setHash (setDesc st i (st.desc i).Clear)
        (htErase st.hashTable (some f, p))).desc i).pinCnt = 0
      rw [desc_setHash, setDesc_oob _ _ _ (Nat.le_of_not_lt hlt),
        desc_oob _ _ (Nat.le_of_not_lt hlt)]
      rfl
  · by_cases hlt : i < st.bufDescTable.length
    · have hdesc : (setHash (setDesc st i (st.desc i).Clear)
          (htErase st.hashTable (some f, p))).desc i = (st.desc i).Clear := by
        rw [desc_setHash]
        exact desc_setDesc_self _ _ _ hlt
      show ((setHash (setDesc st i (st.desc i).Clear)
        (htErase st.hashTable (some f, p))).desc i).dirty = false
      rw [hdesc]
      rfl
    · show ((setHash (setDesc st i (st.desc i).Clear)
        (htErase st.hashTable (some f, p))).desc i).dirty = false
      rw [desc_setHash, setDesc_oob _ _ _ (Nat.le_of_not_lt hlt),
        desc_oob _ _ (Nat.le_of_not_lt hlt)]
      rfl
  · show htLookup (htErase st.hashTable (some f, p)) (some f, p) = none
    exact htLookup_erase _ _

/-- C10 witness: disposing the dirty resident page 1 of file 1 on the
one-frame pool. -/
theorem C10_disposePage_witness :
    ((disposePage stDirty (some 1) 1).st.desc 0).valid = false
    ∧ ((disposePage stDirty (some 1) 1).st.desc 0).pinCnt = 0
    ∧ ((disposePage stDirty (some 1) 1).st.desc 0).dirty = false
    ∧ htLookup (disposePage stDirty (some 1) 1).st.hashTable (some 1, 1) = none
    ∧ (disposePage stDirty (some 1) 1).events = [Ev.deletePage (some 1) 1]
    ∧ (disposePage stDirty (some 1) 1).outcome = Outcome.normal :=
  C10_disposePage stDirty 1 1 0 (by decide)
